import Mathlib

/-!
Verification of the media resolution engine of the Multi-Model-Conversation-Export
browser extension.  The JavaScript sources are shallowly embedded: JS strings are
Lean `String`s, byte buffers are `List Nat`, and every host capability (network
fetch, chrome download API, DOM access) is an explicit oracle parameter.  JS
truthiness of optional string fields is modelled by `optTruthy`.
-/

set_option maxRecDepth 100000

/-! ## JavaScript string primitives -/

/-- JS `String.prototype.includes`, on character lists. -/
def jsIncludesGo (sub : List Char) : List Char → Bool
  | [] => sub.isEmpty
  | c :: rest => sub.isPrefixOf (c :: rest) || jsIncludesGo sub rest

/-- JS `s.includes(sub)`. -/
def jsIncludes (s sub : String) : Bool := jsIncludesGo sub.data s.data

/-- JS `s.startsWith(p)`. -/
def jsStartsWith (s p : String) : Bool := p.data.isPrefixOf s.data

/-- JS `s.endsWith(p)`. -/
def jsEndsWith (s p : String) : Bool := p.data.isSuffixOf s.data

/-- Replace the first occurrence of `pat` (a nonempty pattern) by `repl`:
JS `s.replace(pat, repl)` with a plain-string pattern. -/
def jsReplaceFirstGo (pat repl : List Char) : List Char → List Char
  | [] => []
  | c :: rest =>
      if pat.isPrefixOf (c :: rest) then repl ++ (c :: rest).drop pat.length
      else c :: jsReplaceFirstGo pat repl rest

/-- JS `s.replace(pat, repl)` (first occurrence only). -/
def jsReplaceFirst (s pat repl : String) : String :=
  ⟨jsReplaceFirstGo pat.data repl.data s.data⟩

/-- Replace every character outside `[A-Za-z0-9_-]` by `_`:
JS `s.replace(/[^a-zA-Z0-9_\-]/g, '_')`. -/
def isSafeNameChar (c : Char) : Bool :=
  (('a' ≤ c && c ≤ 'z') || ('A' ≤ c && c ≤ 'Z') || ('0' ≤ c && c ≤ '9')
    || c = '_' || c = '-')

def sanitizeName (s : String) : String :=
  ⟨s.data.map (fun c => if isSafeNameChar c then c else '_')⟩

/-- JS `s.toLowerCase()` (ASCII). -/
def jsToLower (s : String) : String := ⟨s.data.map Char.toLower⟩

/-- JS `s.substring(0, n)` for truncation. -/
def jsTake (s : String) (n : Nat) : String := ⟨s.data.take n⟩

/-- JS `s.length`. -/
def jsLen (s : String) : Nat := s.data.length

/-- One split step: the part before the first occurrence of `pat` and the part
after it, or `none` when `pat` does not occur. -/
def splitOnceGo (pat : List Char) : List Char → Option (List Char × List Char)
  | [] => none
  | c :: rest =>
      if pat.isPrefixOf (c :: rest) then some ([], (c :: rest).drop pat.length)
      else (splitOnceGo pat rest).map (fun p => (c :: p.1, p.2))

/-- JS `s.split(pat)` (pat nonempty, non-overlapping, leftmost first), with
explicit fuel; the fuel `s.length + 1` always suffices. -/
def jsSplitGo (pat : List Char) : Nat → List Char → List (List Char)
  | 0, l => [l]
  | fuel + 1, l =>
      match splitOnceGo pat l with
      | none => [l]
      | some (pre, post) => pre :: jsSplitGo pat fuel post

def jsSplit (s pat : String) : List String :=
  (jsSplitGo pat.data (s.data.length + 1) s.data).map (fun l => ⟨l⟩)

/-- JS `s.split(pat).pop()`: the part after the last occurrence. -/
def jsSplitLast (s pat : String) : String := (jsSplit s pat).getLast!

/-- JS `s.split(pat)[1]`. -/
def jsSplitSecond (s pat : String) : String := (jsSplit s pat).getD 1 ""

/-- JS `s.lastIndexOf(c)` as an `Option` (JS returns `-1` when absent). -/
def lastIdxOfGo (c : Char) : List Char → Option Nat
  | [] => none
  | d :: rest =>
      match lastIdxOfGo c rest with
      | some i => some (i + 1)
      | none => if d = c then some 0 else none

def jsLastIndexOf (s : String) (c : Char) : Option Nat := lastIdxOfGo c s.data

/-- Decimal rendering of a natural number (JS number-to-string for the
non-negative integers used by the code). -/
def digitChar10 (n : Nat) : Char := Char.ofNat (48 + n)

def natToDec (n : Nat) : String :=
  if h : n < 10 then ⟨[digitChar10 n]⟩
  else
    have : n / 10 < n := Nat.div_lt_self (by omega) (by omega)
    natToDec (n / 10) ++ ⟨[digitChar10 (n % 10)]⟩

/-- Decimal evaluation of a character list; left inverse of `natToDec`. -/
def decVal (l : List Char) : Nat :=
  l.foldl (fun a c => 10 * a + (c.toNat - 48)) 0

/-- JS truthiness of an optional string field (`undefined`, `null` and the
empty string are falsy). -/
def optTruthy : Option String → Bool
  | none => false
  | some s => !s.isEmpty

/-- JS `a || b` on optional string fields. -/
def jsOrOpt (a b : Option String) : Option String :=
  if optTruthy a then a else b

/-- JS `a || "lit"`: first truthy value of a chain ending in a literal. -/
def jsOrStr (a : Option String) (b : String) : String :=
  if optTruthy a then a.getD "" else b

/-! ## Data model: media references

One record per unresolved media pointer, mirroring the duck-typed JS object.
Absent fields are `none`. -/

structure MediaRef where
  assetPointer : Option String := none
  fileId : Option String := none
  canvasId : Option String := none
  renderedUrl : Option String := none
  type : String := "image"
  filename : Option String := none
  customName : Option String := none
  title : Option String := none
  format : Option String := none
  mime_type : Option String := none
  metadataDalle : Bool := false
  metadataDallePrompt : Option String := none
  metadataDalleGenId : Option String := none
  deriving Repr, DecidableEq

/-! ## src/modules/file-utils.js -/

namespace FileUtils

/-- Out-of-range JS index access yields `undefined`; the sentinel `256` is
outside the byte range so every comparison in the source fails on it. -/
def byteAt (bytes : List Nat) (i : Nat) : Nat := bytes.getD i 256

/-- `FileUtils.detectFileTypeFromBytes`: magic-number classifier. -/
def detectFileTypeFromBytes (bytes : List Nat) : Option String :=
  if bytes.length < 4 then none
  else if byteAt bytes 0 = 0xFF && byteAt bytes 1 = 0xD8 && byteAt bytes 2 = 0xFF then
    some "image/jpeg"
  else if byteAt bytes 0 = 0x89 && byteAt bytes 1 = 0x50 && byteAt bytes 2 = 0x4E
      && byteAt bytes 3 = 0x47 then
    some "image/png"
  else if byteAt bytes 0 = 0x47 && byteAt bytes 1 = 0x49 && byteAt bytes 2 = 0x46
      && byteAt bytes 3 = 0x38 then
    some "image/gif"
  else if byteAt bytes 0 = 0x52 && byteAt bytes 1 = 0x49 && byteAt bytes 2 = 0x46
      && byteAt bytes 3 = 0x46 && decide (bytes.length ≥ 12) && byteAt bytes 8 = 0x57
      && byteAt bytes 9 = 0x45 && byteAt bytes 10 = 0x42 && byteAt bytes 11 = 0x50 then
    some "image/webp"
  else if byteAt bytes 0 = 0x25 && byteAt bytes 1 = 0x50 && byteAt bytes 2 = 0x44
      && byteAt bytes 3 = 0x46 then
    some "application/pdf"
  else if (byteAt bytes 0 = 0x49 && byteAt bytes 1 = 0x44 && byteAt bytes 2 = 0x33)
      || (byteAt bytes 0 = 0xFF && (byteAt bytes 1 = 0xFB || byteAt bytes 1 = 0xF3
          || byteAt bytes 1 = 0xF2)) then
    some "audio/mpeg"
  else if decide (bytes.length ≥ 8) && byteAt bytes 4 = 0x66 && byteAt bytes 5 = 0x74
      && byteAt bytes 6 = 0x79 && byteAt bytes 7 = 0x70 then
    some "video/mp4"
  else if byteAt bytes 0 = 0x1A && byteAt bytes 1 = 0x45 && byteAt bytes 2 = 0xDF
      && byteAt bytes 3 = 0xA3 then
    some "video/webm"
  else if byteAt bytes 0 = 0x50 && byteAt bytes 1 = 0x4B && byteAt bytes 2 = 0x03
      && byteAt bytes 3 = 0x04 then
    some "application/zip"
  else
    match bytes.findIdx? (fun b => b ≠ 0x20 && b ≠ 0x09 && b ≠ 0x0A && b ≠ 0x0D) with
    | some i => if byteAt bytes i = 0x7B || byteAt bytes i = 0x5B then
                  some "application/json"
                else none
    | none => none

/-- The claimed-content-type short circuit at the top of `isBinaryBlob`:
`blob.type && (image/ | audio/ | video/ | application/pdf)`. -/
def claimedTypeIsMedia (t : String) : Bool :=
  !t.isEmpty && (jsIncludes t "image/" || jsIncludes t "audio/"
    || jsIncludes t "video/" || jsIncludes t "application/pdf")

/-- `FileUtils.isBinaryBlob` on a blob with claimed type `t` and content
`bytes`.  The printable-ratio comparison `text/(text+binary) < 0.9` is exact
for the ≤ 32 samples involved, so it is rendered as `10*text < 9*total`. -/
def isBinaryBlob (t : String) (bytes : List Nat) : Bool :=
  if claimedTypeIsMedia t then true
  else
    let sample := bytes.take 32
    if byteAt sample 0 = 0xFF && byteAt sample 1 = 0xD8 && byteAt sample 2 = 0xFF then true
    else if byteAt sample 0 = 0x89 && byteAt sample 1 = 0x50 && byteAt sample 2 = 0x4E
        && byteAt sample 3 = 0x47 then true
    else if byteAt sample 0 = 0x47 && byteAt sample 1 = 0x49 && byteAt sample 2 = 0x46
        && byteAt sample 3 = 0x38 then true
    else if byteAt sample 0 = 0x7B then false
    else if byteAt sample 0 = 0x5B then false
    else
      let textChars := (sample.filter
        (fun b => (32 ≤ b && b ≤ 126) || b = 9 || b = 10 || b = 13)).length
      let total := sample.length
      if total = 0 then false
      else decide (10 * textChars < 9 * total)

/-- The `ExportConfig.fileTypes` MIME → extension table (part_002). -/
def fileTypesTable : List (String × String) :=
  [("image/png", "png"), ("image/jpeg", "jpg"), ("image/gif", "gif"),
   ("image/webp", "webp"), ("image/bmp", "bmp"), ("image/tiff", "tiff"),
   ("image/svg+xml", "svg"),
   ("audio/mpeg", "mp3"), ("audio/mp3", "mp3"), ("audio/ogg", "ogg"),
   ("audio/wav", "wav"), ("audio/x-wav", "wav"), ("audio/x-m4a", "m4a"),
   ("audio/aac", "aac"), ("audio/flac", "flac"),
   ("video/mp4", "mp4"), ("video/webm", "webm"), ("video/quicktime", "mov"),
   ("video/x-msvideo", "avi"), ("video/x-matroska", "mkv"),
   ("application/json", "json"), ("application/pdf", "pdf"),
   ("application/zip", "zip"), ("application/x-zip-compressed", "zip"),
   ("application/msword", "doc"),
   ("application/vnd.openxmlformats-officedocument.wordprocessingml.document", "docx"),
   ("application/vnd.ms-excel", "xls"),
   ("application/vnd.openxmlformats-officedocument.spreadsheetml.sheet", "xlsx"),
   ("application/vnd.ms-powerpoint", "ppt"),
   ("application/vnd.openxmlformats-officedocument.presentationml.presentation", "pptx"),
   ("text/plain", "txt"), ("text/html", "html"), ("text/css", "css"),
   ("text/javascript", "js"), ("text/csv", "csv"), ("text/xml", "xml"),
   ("application/xml", "xml"), ("application/javascript", "js")]

/-- The `ExportConfig.defaultFileTypes` media-type → extension table. -/
def defaultFileTypesTable : List (String × String) :=
  [("image", "jpg"), ("audio", "mp3"), ("video", "mp4"),
   ("file", "bin"), ("canvas", "json")]

def isExtChar (c : Char) : Bool :=
  ('a' ≤ c && c ≤ 'z') || ('A' ≤ c && c ≤ 'Z') || ('0' ≤ c && c ≤ '9') || c = '-'

/-- The regex `[\.\/]([A-Za-z0-9-]+)$` of `getFileExtension`: since the class
excludes `.` and `/`, a match exists exactly when the text after the last `.`
or `/` is a nonempty run of class characters. -/
def extRegexMatch (s : String) : Option String :=
  let chars := s.data
  match (chars.enum.filter (fun p => p.2 = '.' || p.2 = '/')).getLast? with
  | none => none
  | some (i, _) =>
      let tail := chars.drop (i + 1)
      if !tail.isEmpty && tail.all isExtChar then some ⟨tail⟩ else none

/-- `FileUtils.getFileExtension`. -/
def getFileExtension (mimeType : Option String) (fallbackType : String := "bin") : String :=
  match mimeType with
  | some m =>
      match fileTypesTable.lookup m with
      | some ext => ext
      | none =>
          match extRegexMatch m with
          | some g => if 1 < jsLen g && jsLen g < 10 then jsToLower g else fallbackType
          | none => fallbackType
  | none => fallbackType

/-- `FileUtils.getAppropriateFileExtension`. -/
def getAppropriateFileExtension (mediaType : String) (mimeType : Option String)
    (filename : Option String) (format : Option String) : String :=
  if optTruthy format && 0 < jsLen (format.getD "") && jsLen (format.getD "") < 5 then
    jsToLower (format.getD "")
  else
    let origExt :=
      if optTruthy filename && jsIncludes (filename.getD "") "." then
        some (jsToLower (jsSplitLast (filename.getD "") "."))
      else none
    match origExt with
    | some e =>
        if !e.isEmpty && 0 < jsLen e && jsLen e < 5 then e
        else afterOrigExt mediaType mimeType
    | none => afterOrigExt mediaType mimeType
where
  afterOrigExt (mediaType : String) (mimeType : Option String) : String :=
    if mediaType = "image" then
      if optTruthy mimeType && (jsIncludes (mimeType.getD "") "jpeg"
          || jsIncludes (mimeType.getD "") "jpg") then "jpg"
      else "png"
    else if optTruthy mimeType && mimeType ≠ some "application/octet-stream"
        && mimeType ≠ some "application/json" then
      getFileExtension mimeType
    else
      match defaultFileTypesTable.lookup mediaType with
      | some ext => ext
      | none => "bin"

/-- `FileUtils.createSuitableFilename`. -/
def createSuitableFilename (mediaRef : MediaRef) (contentType : Option String) : String :=
  if optTruthy mediaRef.assetPointer
      && jsIncludes (mediaRef.assetPointer.getD "") "sediment://" then
    let fileId := jsOrStr mediaRef.fileId
      (jsReplaceFirst (mediaRef.assetPointer.getD "") "sediment://" "")
    let baseName := jsOrStr mediaRef.customName ("dalle_" ++ jsSplitLast fileId "/")
    let baseName := if jsLen baseName > 200 then jsTake baseName 200 else baseName
    baseName ++ ".png"
  else
    let ext := getAppropriateFileExtension mediaRef.type
      (jsOrOpt contentType mediaRef.mime_type) mediaRef.filename mediaRef.format
    if ext = "png" then
      let fileId := jsOrStr (jsOrOpt mediaRef.fileId
        (jsOrOpt mediaRef.assetPointer mediaRef.canvasId)) "unknown"
      let cleanId := if jsIncludes fileId "://" then jsSplitLast fileId "://" else fileId
      let originalFilename :=
        if optTruthy mediaRef.filename then
          let f := mediaRef.filename.getD ""
          if jsIncludes f "." then
            match jsLastIndexOf f '.' with
            | some i => jsTake f i
            | none => f
          else f
        else if optTruthy mediaRef.customName then mediaRef.customName.getD ""
        else if optTruthy mediaRef.title then
          jsToLower (sanitizeName (mediaRef.title.getD ""))
        else "image"
      let safeOriginalFilename := sanitizeName originalFilename
      let fileIdWithDash :=
        if jsStartsWith cleanId "file-" || jsStartsWith cleanId "file_" then cleanId
        else "file-" ++ cleanId
      fileIdWithDash ++ "-" ++ safeOriginalFilename ++ "." ++ ext
    else
      let comps : List String :=
        (if optTruthy mediaRef.title then
          [jsToLower (sanitizeName (mediaRef.title.getD ""))] else [])
        ++
        (if optTruthy mediaRef.customName then [mediaRef.customName.getD ""]
         else if optTruthy mediaRef.filename then
           let f := mediaRef.filename.getD ""
           if jsIncludes f "." then
             match jsLastIndexOf f '.' with
             | some i => [jsTake f i]
             | none => [f]
           else [f]
         else [])
      let comps :=
        if comps.isEmpty then
          let fileId := jsOrStr (jsOrOpt mediaRef.fileId
            (jsOrOpt mediaRef.assetPointer mediaRef.canvasId)) "file"
          let cleanId := if jsIncludes fileId "://" then jsSplitLast fileId "://" else fileId
          [mediaRef.type ++ "_" ++ cleanId]
        else comps
      let baseName := String.intercalate "_" comps
      let safeBaseName := if jsLen baseName > 50 then jsTake baseName 50 else baseName
      safeBaseName ++ "." ++ ext

end FileUtils

/-! ### Spec-side definition for the amended C4 claim -/

/-- The sediment (generated-image) base-name rule as amended: the custom-name
hint when present, otherwise `dalle_` followed by the tail of the file id,
truncated to 200 characters. -/
def sedimentBaseName (mediaRef : MediaRef) : String :=
  let fileId := jsOrStr mediaRef.fileId
    (jsReplaceFirst (mediaRef.assetPointer.getD "") "sediment://" "")
  let base := jsOrStr mediaRef.customName ("dalle_" ++ jsSplitLast fileId "/")
  if jsLen base > 200 then jsTake base 200 else base

/-! ## src/modules/media-downloader.js — MediaUrlGenerator -/

namespace MediaUrlGenerator

/-- `Config.sedimentRegions` from the configuration module (part_002). -/
def configSedimentRegions : List String :=
  ["westus2", "westus3", "centralus", "eastus", "eastus2", "northcentralus",
   "southcentralus", "northeurope", "westeurope", "australiaeast",
   "southeastasia", "eastasia", "centralindia"]

/-- The fallback region list hardcoded inside `generateAlternativeUrls`. -/
def generatorFallbackRegions : List String :=
  ["westus2", "centralus", "westus3", "eastus2", "eastus", "northcentralus",
   "southcentralus", "northeurope", "westeurope", "australiaeast",
   "southeastasia", "eastasia"]

def isHexLowerChar (c : Char) : Bool :=
  ('0' ≤ c && c ≤ '9') || ('a' ≤ c && c ≤ 'f')

/-- The regex `([0-9a-f]{8})([0-9a-f]{4})([0-9a-f]{4})([0-9a-f]{4})([0-9a-f]{12})`
replaced by `$1-$2-$3-$4-$5`: the earliest run of 32 consecutive lowercase hex
characters is rewritten with hyphens in UUID positions. -/
def hyphenGo : List Char → List Char
  | [] => []
  | c :: rest =>
      let l := c :: rest
      if (l.take 32).length = 32 && (l.take 32).all isHexLowerChar then
        l.take 8 ++ '-' :: ((l.drop 8).take 4 ++ '-' :: ((l.drop 12).take 4
          ++ '-' :: ((l.drop 16).take 4 ++ '-' :: ((l.drop 20).take 12 ++ l.drop 32))))
      else c :: hyphenGo rest

def hyphenateUuid (s : String) : String := ⟨hyphenGo s.data⟩

/-- `isDalleImageNew` classifier line of `generateAlternativeUrls`. -/
def isDalleImageNew (fileId : String) : Bool :=
  jsIncludes fileId "sediment://file_" || jsStartsWith fileId "file_"

/-- `isDalleImageOld` classifier line. -/
def isDalleImageOld (fileId : String) : Bool :=
  jsIncludes fileId "sediment://" && !jsIncludes fileId "sediment://file_"

/-- `isUserUpload` classifier line. -/
def isUserUpload (fileId : String) : Bool :=
  jsIncludes fileId "file-service://" || jsIncludes fileId "file-"

/-- `cleanId` for the new DALL-E branch. -/
def newDalleCleanId (fileId : String) : String :=
  if jsIncludes fileId "sediment://" then jsSplitSecond fileId "sediment://" else fileId

/-- `withoutFilePfx` of the new DALL-E branch. -/
def newDalleBareId (fileId : String) : String :=
  let cleanId := newDalleCleanId fileId
  if jsStartsWith cleanId "file_" then ⟨cleanId.data.drop 5⟩ else cleanId

/-- `withFilePfx` of the new DALL-E branch. -/
def newDalleTaggedId (fileId : String) : String :=
  let cleanId := newDalleCleanId fileId
  if jsStartsWith cleanId "file_" then cleanId else "file_" ++ cleanId

/-- `fileUuid` of the new DALL-E branch. -/
def newDalleFileUuid (fileId : String) : String :=
  let w := newDalleBareId fileId
  if jsIncludes w "-" then w else hyphenateUuid w

/-- A direct storage-mirror URL for one geographic region. -/
def sedimentMirrorUrl (region uuid : String) : String :=
  "https://sdmntpr" ++ region ++ ".oaiusercontent.com/files/" ++ uuid ++ "/raw"

/-- `MediaUrlGenerator.generateAlternativeUrls(fileId, domain)`.  The first
argument models `window.ExportConfig.sedimentRegions` (`none` when the config
module is absent, in which case the hardcoded fallback list is used). -/
def generateAlternativeUrls (regionsOpt : Option (List String))
    (fileId domain : String) : List String :=
  let baseUrl := "https://" ++ domain
  if isDalleImageNew fileId then
    let bare := newDalleBareId fileId
    let tagged := newDalleTaggedId fileId
    let fileUuid := newDalleFileUuid fileId
    let regions := regionsOpt.getD generatorFallbackRegions
    regions.map (fun r => sedimentMirrorUrl r fileUuid)
    ++ [baseUrl ++ "/backend-api/sediment/content/" ++ tagged,
        baseUrl ++ "/backend-api/sediment/content/" ++ bare,
        baseUrl ++ "/backend-api/sediment/files/" ++ tagged,
        baseUrl ++ "/backend-api/sediment/files/" ++ bare]
    ++ ["https://files.oaiusercontent.com/file/" ++ fileUuid,
        "https://files.oaiusercontent.com/file/" ++ tagged]
  else if isDalleImageOld fileId then
    let cleanId := if jsIncludes fileId "sediment://" then
      jsSplitSecond fileId "sediment://" else fileId
    [baseUrl ++ "/backend-api/sediment/content/" ++ cleanId,
     baseUrl ++ "/backend-api/sediment/files/" ++ cleanId,
     "https://files.oaiusercontent.com/file/" ++ cleanId,
     "https://cdn.oaistatic.com/images/" ++ cleanId ++ ".png",
     baseUrl ++ "/backend-api/images/generations/" ++ cleanId,
     baseUrl ++ "/backend-api/images/" ++ cleanId ++ "/content"]
  else if isUserUpload fileId then
    let cleanId := if jsIncludes fileId "file-service://" then
      jsSplitSecond fileId "file-service://" else fileId
    [baseUrl ++ "/backend-api/files/content/" ++ cleanId ++ "?format=binary",
     baseUrl ++ "/backend-api/files/download/content/" ++ cleanId,
     "https://files.oaiusercontent.com/file/" ++ cleanId,
     "https://files.oaiusercontent.com/file-" ++ cleanId]
  else
    let cleanId := if jsIncludes fileId "://" then jsSplitSecond fileId "://" else fileId
    [baseUrl ++ "/backend-api/files/content/" ++ cleanId ++ "?format=binary",
     "https://files.oaiusercontent.com/file/" ++ cleanId]

end MediaUrlGenerator

/-! ## ChatGPT handler (part_001): filename de-duplication -/

namespace ChatGPTHandler

/-- One de-duplication candidate: `_${counter}` inserted before the last dot
(or appended when the base name has no dot). -/
def insertCounter (base : String) (k : Nat) : String :=
  match jsLastIndexOf base '.' with
  | some i => jsTake base i ++ "_" ++ natToDec k ++ ⟨base.data.drop i⟩
  | none => base ++ "_" ++ natToDec k

/-- The sequence of names tried by the while loop: the base name itself, then
`base_1`, `base_2`, … -/
def candidateName (base : String) : Nat → String
  | 0 => base
  | k + 1 => insertCounter base (k + 1)

/-- The `while (usedFilenames.has(finalName))` loop with explicit fuel. -/
def dedupeGo (used : List String) (base : String) : Nat → Nat → String
  | 0, k => candidateName base k
  | fuel + 1, k =>
      let c := candidateName base k
      if used.contains c then dedupeGo used base fuel (k + 1) else c

/-- De-duplicate one synthesized base name against the registry; the fuel
`used.length + 1` always suffices (see `dedupeFilename_not_mem`). -/
def dedupeFilename (used : List String) (base : String) : String :=
  dedupeGo used base (used.length + 1) 0

/-- One iteration of the `refs.forEach` naming loop: assign the de-duplicated
name and record it in the registry. -/
def assignStep (acc : List String × List String) (b : String) : List String × List String :=
  let name := dedupeFilename acc.2 b
  (acc.1 ++ [name], name :: acc.2)

/-- Assign filenames to a batch of synthesized base names, starting from an
empty registry; returns the assigned names in order and the final registry. -/
def assignFilenames (bases : List String) : List String × List String :=
  bases.foldl assignStep ([], [])

end ChatGPTHandler

/-! ## src/modules/auth.js

JS strings are sequences of UTF-16 code units; `charCodeAt`, `^` and
`String.fromCharCode` act on those units, so tokens and keys are embedded as
lists of naturals below `2^16` and `fromCharCode` truncates modulo `2^16`. -/

namespace AuthManager

/-- The shared XOR loop of `encryptToken` and `decryptToken`. -/
def xorLoop (key : List Nat) (i : Nat) : List Nat → List Nat
  | [] => []
  | c :: rest => ((c ^^^ key.getD (i % key.length) 0) % 65536) :: xorLoop key (i + 1) rest

/-- `encryptToken(token, key)`. -/
def encryptToken (token key : List Nat) : List Nat := xorLoop key 0 token

/-- `decryptToken(token, key)` (same body as `encryptToken`). -/
def decryptToken (token key : List Nat) : List Nat := xorLoop key 0 token

/-- The module-level `sessionCache`. -/
structure SessionCache where
  token : Option (List Nat) := none
  expiry : Option Nat := none
  tokenEncryptionKey : List Nat := []
  deriving Repr, DecidableEq

/-- The cache-hit test of `getAccessToken`:
`sessionCache.token && sessionCache.expiry && now < sessionCache.expiry`,
with JS truthiness on the first two conjuncts. -/
def cacheHit (cache : SessionCache) (now : Nat) : Bool :=
  (match cache.token with | none => false | some t => !t.isEmpty)
  && (match cache.expiry with | none => false | some e => decide (e ≠ 0))
  && (match cache.expiry with | none => false | some e => decide (now < e))

/-- The cache-consulting prefix of `getAccessToken`: on a hit the decrypted
cached token is returned; `none` models falling through to the network
fetch. -/
def getAccessToken (cache : SessionCache) (now : Nat) : Option (List Nat) :=
  if cacheHit cache now then
    some (decryptToken (cache.token.getD []) cache.tokenEncryptionKey)
  else none

end AuthManager

/-! ## src/modules/media-downloader.js — the candidate loop of downloadMedia

The third-strategy loop iterates over the live `urlsToTry` array: for each URL
it tries `MediaFetcher.fetchViaBackgroundScript`, then
`MediaFetcher.fetchDirectly`; a redirect URL found in a JSON body is pushed to
the end of the queue unless already present.  The remote world is a finite
association list per strategy; URLs outside it error at the network layer. -/

namespace MediaDownloader

/-- Payload of a successful fetch strategy (`{success: true, ...}`). -/
structure FetchSuccess where
  contentType : String := ""
  bytes : List Nat := []
  method : String := ""
  deriving Repr, DecidableEq

/-- What one fetch call does, as observed by the loop: throw, return `null`,
return `{redirectUrl}`, or return a success result. -/
inductive FetchOutcome where
  | thrown (msg : String)
  | nullResult
  | redirect (url : String)
  | ok (res : FetchSuccess)
  deriving Repr, DecidableEq

/-- The remote world seen by the two in-loop strategies. -/
structure FetchEnv where
  bg : List (String × FetchOutcome) := []
  direct : List (String × FetchOutcome) := []
  deriving Repr, DecidableEq

/-- Response of a strategy for one URL; unknown URLs fail at the network
layer, which the loop observes as a thrown error. -/
def lookupOutcome (m : List (String × FetchOutcome)) (u : String) : FetchOutcome :=
  match m.lookup u with
  | some o => o
  | none => .thrown ("network error for " ++ u)

/-- All redirect URLs the environment can ever reveal. -/
def redirectTargets (env : FetchEnv) : List String :=
  (env.bg ++ env.direct).filterMap
    (fun p => match p.2 with | .redirect u => some u | _ => none)

/-- State of the loop after it finishes. -/
structure LoopResult where
  success : Option (FetchSuccess × String) := none
  queue : List String := []
  errors : List String := []
  jsonUrls : List String := []
  fetches : Nat := 0
  deriving Repr, DecidableEq

/-- Append a redirect URL to the queue unless it is already present:
`if (!urlsToTry.includes(result.redirectUrl)) urlsToTry.push(...)`. -/
def pushIfNew (queue : List String) (r : String) : List String :=
  if queue.contains r then queue else queue ++ [r]

/-- The candidate loop, one iteration per fuel unit.  `i` indexes the live
queue; `none` is fuel exhaustion (shown unreachable for the fuel used by
`tryUrls`). -/
def tryUrlsGo (env : FetchEnv) :
    Nat → List String → Nat → List String → List String → Nat → Option LoopResult
  | 0, _, _, _, _, _ => none
  | fuel + 1, queue, i, errors, jsonUrls, fetches =>
      if h : i < queue.length then
        let url := queue.get ⟨i, h⟩
        match lookupOutcome env.bg url with
        | .ok res => some ⟨some (res, url), queue, errors, jsonUrls, fetches + 1⟩
        | .redirect r =>
            tryUrlsGo env fuel (pushIfNew queue r) (i + 1) errors
              (jsonUrls ++ [r]) (fetches + 1)
        | .thrown m =>
            match lookupOutcome env.direct url with
            | .ok res =>
                some ⟨some (res, url), queue, errors ++ [m], jsonUrls, fetches + 2⟩
            | .redirect r =>
                tryUrlsGo env fuel (pushIfNew queue r) (i + 1) (errors ++ [m])
                  (jsonUrls ++ [r]) (fetches + 2)
            | .thrown m2 =>
                tryUrlsGo env fuel queue (i + 1) (errors ++ [m, m2]) jsonUrls (fetches + 2)
            | .nullResult =>
                tryUrlsGo env fuel queue (i + 1) (errors ++ [m]) jsonUrls (fetches + 2)
        | .nullResult =>
            match lookupOutcome env.direct url with
            | .ok res => some ⟨some (res, url), queue, errors, jsonUrls, fetches + 2⟩
            | .redirect r =>
                tryUrlsGo env fuel (pushIfNew queue r) (i + 1) errors
                  (jsonUrls ++ [r]) (fetches + 2)
            | .thrown m2 =>
                tryUrlsGo env fuel queue (i + 1) (errors ++ [m2]) jsonUrls (fetches + 2)
            | .nullResult =>
                tryUrlsGo env fuel queue (i + 1) errors jsonUrls (fetches + 2)
      else
        some ⟨none, queue, errors, jsonUrls, fetches⟩

/-- Fuel that always suffices: distinct unseen redirect targets plus the
queue length. -/
def loopFuel (env : FetchEnv) (queue : List String) : Nat :=
  ((redirectTargets env).filter (fun t => !queue.contains t)).length + queue.length

/-- The candidate loop of `downloadMedia` (third strategy). -/
def tryUrls (env : FetchEnv) (queue : List String) : LoopResult :=
  (tryUrlsGo env (loopFuel env queue + 1) queue 0 [] [] 0).getD
    { queue := queue }

/-! ### MediaDownloader.downloadMedia

Host capabilities (chrome download API, background messaging, network) are
oracle fields; the conversation folder name (a date-dependent value from
`ConversationManager.createConversationFolderName`) is passed as an opaque
optional string. -/

/-- The fallback region list hardcoded inside `downloadMedia` (used at both
the direct-download loop and the queue-priming loop). -/
def downloadMediaFallbackRegions : List String :=
  ["westus2", "eastus2", "centralus", "westus3", "eastus", "northcentralus",
   "southcentralus", "northeurope", "westeurope", "australiaeast",
   "southeastasia", "eastasia"]

/-- `fileUuid` / `uuidWithHyphens` computation of `downloadMedia`: strip the
`file_` tag, then hyphenate unless the id already contains hyphens. -/
def sedimentUuidWithHyphens (cleanId : String) : String :=
  let fileUuid := if jsStartsWith cleanId "file_" then ⟨cleanId.data.drop 5⟩ else cleanId
  if jsIncludes fileUuid "-" then fileUuid else MediaUrlGenerator.hyphenateUuid fileUuid

/-- Host-capability oracles consumed by `downloadMedia`. -/
structure DMEnv where
  chromeAvailable : Bool := true
  hostname : Option String := some "chatgpt.com"
  sedimentRegionsCfg : Option (List String) := some MediaUrlGenerator.configSedimentRegions
  directDownload : String → String → Bool := fun _ _ => false
  chromeDownload : String → String → Bool := fun _ _ => false
  bgBatch : String → List String → Bool := fun _ _ => false
  metadataUrls : String → List String := fun _ => []
  fetch : FetchEnv := {}
  fetchSigned : String → Option FetchSuccess := fun _ => none

/-- Observable outcome of `downloadMedia`, including how often
`generateAlternativeUrls` was invoked during the call. -/
structure DMResult where
  success : Bool := false
  contentType : Option String := none
  method : Option String := none
  error : Option String := none
  renderedUrl : Option String := none
  filename : Option String := none
  genAltCalls : Nat := 0
  deriving Repr, DecidableEq

/-- `MediaFetcher.fixContentTypeIssues` (part_002). -/
def fixContentTypeIssues (mediaRef : MediaRef) (res : FetchSuccess) : FetchSuccess :=
  let filename := FileUtils.createSuitableFilename mediaRef (some res.contentType)
  let fileExt := jsToLower (jsSplitLast filename ".")
  let res :=
    if (fileExt = "jpg" || fileExt = "jpeg")
        && (!jsIncludes res.contentType "jpeg" || jsIncludes res.contentType "json") then
      { res with contentType := "image/jpeg" }
    else res
  if fileExt = "png"
      && (!jsIncludes res.contentType "png" || jsIncludes res.contentType "json") then
    { res with contentType := "image/png" }
  else res

/-- The sediment special-handling block of `downloadMedia` (lines 57–185):
`some` is an early return, `none` falls through to the remaining strategies. -/
def sedimentStage (env : DMEnv) (mediaRef : MediaRef)
    (conversationFolder : Option String) : Option DMResult :=
  if optTruthy mediaRef.assetPointer
      && jsIncludes (mediaRef.assetPointer.getD "") "sediment://" then
    let ap := mediaRef.assetPointer.getD ""
    let folderName := conversationFolder.getD "chatgpt_export"
    let filename := FileUtils.createSuitableFilename mediaRef (some "image/png")
    let fullPath := folderName ++ "/media/" ++ filename
    let sasHit :=
      match mediaRef.renderedUrl with
      | some u =>
          if jsIncludes u "sdmntpr" && jsIncludes u "/raw" && jsIncludes u "sig="
              && env.directDownload u fullPath then
            some u
          else none
      | none => none
    match sasHit with
    | some u =>
        some { success := true, contentType := some "image/png",
               method := some "direct_sediment_download_with_sas",
               renderedUrl := some u }
    | none =>
        let cleanId := jsReplaceFirst ap "sediment://" ""
        let uuidWithHyphens := sedimentUuidWithHyphens cleanId
        let regions := env.sedimentRegionsCfg.getD downloadMediaFallbackRegions
        match regions.findSome? (fun region =>
            let url := MediaUrlGenerator.sedimentMirrorUrl region uuidWithHyphens
            if env.directDownload url fullPath then some url else none) with
        | some url =>
            some { success := true, contentType := some "image/png",
                   method := some "direct_sediment_download", renderedUrl := some url }
        | none => none
  else none

/-- The rendered-URL direct strategy of `downloadMedia` (lines 188–280). -/
def renderedStage (env : DMEnv) (mediaRef : MediaRef)
    (conversationFolder : Option String) : Option DMResult :=
  match mediaRef.renderedUrl with
  | some u =>
      if jsStartsWith u "http" then
        let ct := if jsIncludes u ".jpg" || jsIncludes u ".jpeg" then
          "image/jpeg" else "image/png"
        let filename :=
          match conversationFolder with
          | some f => f ++ "/media/" ++ FileUtils.createSuitableFilename mediaRef (some ct)
          | none => FileUtils.createSuitableFilename mediaRef (some ct)
        if env.chromeAvailable then
          if env.chromeDownload u filename then
            some { success := true, contentType := some ct,
                   method := some "chrome_downloads_direct", renderedUrl := some u }
          else if env.directDownload u filename then
            some { success := true, contentType := some ct,
                   method := some "background_script_direct", renderedUrl := some u }
          else none
        else none
      else none
  | none => none

/-- The enumeration strategies of `downloadMedia` (lines 281–488): build the
candidate queue from `generateAlternativeUrls` (called once per domain), CDN
guesses and primed sediment mirrors; then background batch download, metadata
URLs, the candidate loop and finally the signed-URL pass. -/
def mainStage (env : DMEnv) (mediaRef : MediaRef) : DMResult :=
  let currentDomain := env.hostname.getD "chatgpt.com"
  let primaryDomain := "chat.openai.com"
  let secondaryDomain := currentDomain
  let fileIdOpt := jsOrOpt mediaRef.assetPointer
    (jsOrOpt mediaRef.fileId mediaRef.canvasId)
  if !optTruthy fileIdOpt then
    { success := false, error := some "No valid file identifier found" }
  else
    let fileId := fileIdOpt.getD ""
    let primaryUrls :=
      MediaUrlGenerator.generateAlternativeUrls env.sedimentRegionsCfg fileId primaryDomain
    let secondaryUrls :=
      MediaUrlGenerator.generateAlternativeUrls env.sedimentRegionsCfg fileId secondaryDomain
    let urlsToTry := primaryUrls ++ secondaryUrls
    let cleanId := jsReplaceFirst fileId "sediment://" ""
    let tagged := jsStartsWith cleanId "file_"
    let actualId := if tagged then (⟨cleanId.data.drop 5⟩ : String) else cleanId
    let withTag := if tagged then cleanId else "file_" ++ cleanId
    let cdnUrls :=
      ["https://files.oaiusercontent.com/file/" ++ actualId,
       "https://files.oaiusercontent.com/file/" ++ withTag,
       "https://files.oaiusercontent.com/file/" ++ cleanId,
       "https://files.oaiusercontent.com/file-" ++ actualId,
       "https://files.oaiusercontent.com/file-" ++ withTag,
       "https://files.oaiusercontent.com/file-" ++ cleanId,
       "https://cdn.oaistatic.com/" ++ actualId,
       "https://cdn.oaistatic.com/" ++ withTag,
       "https://cdn.oaistatic.com/" ++ cleanId,
       "https://cdn.oaistatic.com/images/" ++ actualId ++ ".png",
       "https://cdn.oaistatic.com/images/" ++ withTag ++ ".png",
       "https://cdn.oaistatic.com/images/" ++ cleanId ++ ".png"]
    let urlsToTry := cdnUrls ++ urlsToTry
    let urlsToTry :=
      if jsIncludes fileId "sediment://" || jsStartsWith fileId "file_" then
        let rawId := jsReplaceFirst fileId "sediment://" ""
        let uuidWithHyphens := sedimentUuidWithHyphens rawId
        let regions := env.sedimentRegionsCfg.getD downloadMediaFallbackRegions
        regions.foldl (fun q region =>
          let url := MediaUrlGenerator.sedimentMirrorUrl region uuidWithHyphens
          if q.contains url then q else url :: q) urlsToTry
      else urlsToTry
    if env.chromeAvailable && env.bgBatch fileId urlsToTry then
      { success := true, method := some "background_direct",
        filename := some (FileUtils.createSuitableFilename mediaRef none),
        genAltCalls := 2 }
    else
      let additionalUrls := env.metadataUrls fileId
      let urlsToTry := additionalUrls.foldl
        (fun q url => if q.contains url then q else url :: q) urlsToTry
      let lr := tryUrls env.fetch urlsToTry
      match lr.success with
      | some (res, _url) =>
          let fixed := fixContentTypeIssues mediaRef res
          { success := true, contentType := some fixed.contentType,
            method := some fixed.method, genAltCalls := 2 }
      | none =>
          match lr.jsonUrls.findSome?
              (fun u => (env.fetchSigned u).map (fun r => (u, r))) with
          | some (_u, r) =>
              let fixed := fixContentTypeIssues mediaRef r
              { success := true, contentType := some fixed.contentType,
                method := some fixed.method, genAltCalls := 2 }
          | none =>
              { success := false,
                error := some ("All URL formats failed. Errors: "
                  ++ String.intercalate "; " lr.errors),
                genAltCalls := 2 }

/-- `MediaDownloader.downloadMedia`. -/
def downloadMedia (env : DMEnv) (mediaRef : MediaRef) (token : String)
    (conversationFolder : Option String) : DMResult :=
  match sedimentStage env mediaRef conversationFolder with
  | some r => r
  | none =>
      match renderedStage env mediaRef conversationFolder with
      | some r => r
      | none => mainStage env mediaRef

end MediaDownloader

/-! ## Content script (part_000): createAndDownloadZip media-item processing

JSON response bodies are represented structurally; `renderJVal` is the text
the page would read back from the blob.  A body that is not valid JSON is a
`rawBody` of bytes (on it, `response.json()` throws). -/

def lbraceStr : String := "\x7b"

def rbraceStr : String := "\x7d"

inductive JVal where
  | nullV
  | boolV (b : Bool)
  | numV (n : Int)
  | strV (s : String)
  | arrV (elems : List JVal)
  | objV (fields : List (String × JVal))

def intToDec (n : Int) : String :=
  if n < 0 then "-" ++ natToDec n.natAbs else natToDec n.toNat

mutual

def renderJVal : JVal → String
  | .nullV => "null"
  | .boolV true => "true"
  | .boolV false => "false"
  | .numV n => intToDec n
  | .strV s => "\"" ++ s ++ "\""
  | .arrV es => "[" ++ String.intercalate "," (renderJList es) ++ "]"
  | .objV fs => lbraceStr ++ String.intercalate "," (renderJFields fs) ++ rbraceStr

def renderJList : List JVal → List String
  | [] => []
  | v :: rest => renderJVal v :: renderJList rest

def renderJFields : List (String × JVal) → List String
  | [] => []
  | (k, v) :: rest => ("\"" ++ k ++ "\":" ++ renderJVal v) :: renderJFields rest

end

/-- JS property access `json[k]` on a parsed body. -/
def jGet (v : JVal) (k : String) : Option JVal :=
  match v with
  | .objV fs => fs.lookup k
  | _ => none

/-- JS truthiness of a property value. -/
def jTruthy : Option JVal → Bool
  | none => false
  | some .nullV => false
  | some (.boolV b) => b
  | some (.numV n) => decide (n ≠ 0)
  | some (.strV s) => !s.isEmpty
  | some (.arrV _) => true
  | some (.objV _) => true

/-- JS strict equality `json[k] === s` against a string literal. -/
def jStrEq (v : JVal) (k s : String) : Bool :=
  match jGet v k with
  | some (.strV t) => t == s
  | _ => false

/-- JS string coercion of a property value, as used in template literals. -/
def jToString : Option JVal → String
  | none => "undefined"
  | some .nullV => "null"
  | some (.boolV true) => "true"
  | some (.boolV false) => "false"
  | some (.numV n) => intToDec n
  | some (.strV s) => s
  | some (.arrV _) => ""
  | some (.objV _) => "[object Object]"

/-- A response body: structurally-JSON content or raw bytes. -/
inductive JBody where
  | jsonBody (v : JVal)
  | rawBody (bytes : List Nat)

/-- `response.json()` / blob JSON parse: `none` models a parse throw. -/
def jBodyJson : JBody → Option JVal
  | .jsonBody v => some v
  | .rawBody _ => none

/-- `blob.text()`. -/
def jBodyText : JBody → String
  | .jsonBody v => renderJVal v
  | .rawBody bytes => ⟨bytes.map Char.ofNat⟩

/-- `blob.size` (bodies here are ASCII, one byte per character). -/
def jBodySize : JBody → Nat
  | .jsonBody v => (renderJVal v).data.length
  | .rawBody bytes => bytes.length

structure HttpResp where
  status : Nat := 200
  contentType : Option String := none
  body : JBody

structure MediaItem where
  url : String
  filename : String
  isRemote : Bool := false

structure ZipEnv where
  fetch : String → Option HttpResp := fun _ => none
  bgFetch : String → Option JBody := fun _ => none

structure ItemResult where
  saved : Option (String × JBody) := none
  logs : List String := []

/-- The `console.warn` message of the direct-fetch catch handler. -/
def directFailLog (item : MediaItem) (msg : String) : String :=
  "Direct fetch failed/rejected for " ++ item.filename ++ ": " ++ msg

/-- `response.ok` and `blob = await response.blob()` after redirect handling:
a non-2xx status throws `HTTP <status>` into the catch handler. -/
def respOk (item : MediaItem) (resp : HttpResp) : Option JBody × List String :=
  if 200 ≤ resp.status && resp.status < 300 then (some resp.body, [])
  else (none, [directFailLog item ("HTTP " ++ natToDec resp.status)])

/-- The direct-fetch attempt of one media item (step 1), including the
redirect-via-JSON and error-JSON handling on a JSON content type. -/
def directStage (env : ZipEnv) (item : MediaItem) : Option JBody × List String :=
  match env.fetch item.url with
  | none => (none, [directFailLog item "network error"])
  | some resp =>
      let isJsonCt :=
        match resp.contentType with
        | some ct => jsIncludes ct "application/json"
        | none => false
      if isJsonCt then
        match jBodyJson resp.body with
        | none => (none, [directFailLog item "json parse error"])
        | some j =>
            if jStrEq j "status" "success" && jTruthy (jGet j "download_url") then
              match env.fetch (jToString (jGet j "download_url")) with
              | none => (none, [directFailLog item "network error"])
              | some resp2 => respOk item resp2
            else if jStrEq j "status" "error" || jTruthy (jGet j "detail") then
              (none, [directFailLog item ("API Error: "
                ++ jToString (if jTruthy (jGet j "detail") then jGet j "detail"
                              else jGet j "error_code"))])
            else respOk item resp
      else respOk item resp

/-- Processing of one media item inside `createAndDownloadZip`: direct fetch,
background-fetch fallback, then the error-JSON validation gate before the
file is added to the archive. -/
def processMediaItem (env : ZipEnv) (item : MediaItem) : ItemResult :=
  let forceBackground := item.isRemote || jsIncludes item.url "googleusercontent.com"
    || jsIncludes item.url "anthropic.com"
  let step1 :=
    if !forceBackground && jsStartsWith item.url "http" then directStage env item
    else (none, [])
  let step2 :=
    match step1.1 with
    | some b => (some b, step1.2)
    | none =>
        if jsStartsWith item.url "http" then
          match env.bgFetch item.url with
          | some b => (some b, step1.2)
          | none => (none, step1.2)
        else (none, step1.2)
  match step2.1 with
  | none => { saved := none, logs := step2.2 }
  | some b =>
      if jBodySize b < 2000 then
        let text := jBodyText b
        if jsStartsWith text lbraceStr
            && (jsIncludes text "\"error\"" || jsIncludes text "\"detail\"") then
          { saved := none,
            logs := step2.2 ++ ["Skipping " ++ item.filename
              ++ ": File contains Error JSON."] }
        else { saved := some (item.filename, b), logs := step2.2 }
      else { saved := some (item.filename, b), logs := step2.2 }

/-! ## MediaDownloader.downloadAllMedia (batch orchestrator)

The conversation payload is opaque to the orchestrator except through regex
scans of its JSON text and its folder name; `ConvData` carries those host
regex-scan results and the date-dependent folder name as given values. -/

namespace MediaDownloader

/-- Regex-scan view of one conversation payload. -/
structure ConvData where
  sedimentSasMatches : List (String × String) := []
  fileUrlMatches : List String := []
  sedimentRawMatches : List String := []
  fileIdMatches : List String := []
  folderName : String := "chatgpt_export"
  deriving Repr, DecidableEq

/-- Host capabilities of the orchestrator. -/
structure BatchEnv where
  dm : DMEnv := {}
  mediaExtractorLoaded : Bool := true
  domImages : List String := []
  decode : String → String := id

/-- `MediaExtractor.findRenderedImages` (src/mediaExtractor.js): match image
references against the `src` attributes of the page's `img` elements. -/
def findRenderedImages (domImages : List String) (refs : List MediaRef) : List MediaRef :=
  refs.map (fun ref =>
    if ref.type ≠ "image" then ref
    else
      let s1 := ref.fileId.getD "undefined"
      let s2 := if jsStartsWith s1 "file_" then (⟨s1.data.drop 5⟩ : String) else s1
      let s3 := if jsStartsWith s2 "file-" then (⟨s2.data.drop 5⟩ : String) else s2
      match domImages.find? (fun src => !src.isEmpty && jsIncludes src s3) with
      | some src => { ref with renderedUrl := some src }
      | none => ref)

/-- The SAS-token matching pass of `downloadAllMedia` (lines 538–556):
attach signed sediment URLs found in the conversation JSON to matching
sediment references. -/
def attachSasUrls (sasMatches : List (String × String)) (refs : List MediaRef) :
    List MediaRef :=
  refs.map (fun ref =>
    match ref.assetPointer with
    | some ap =>
        if jsIncludes ap "sediment://" then
          let fid := jsReplaceFirst ap "sediment://" ""
          let rawId := if jsStartsWith fid "file_" then (⟨fid.data.drop 5⟩ : String) else fid
          let uuid := if jsIncludes rawId "-" then rawId
            else MediaUrlGenerator.hyphenateUuid rawId
          match sasMatches.find? (fun m => m.1 == uuid) with
          | some m => if !m.2.isEmpty then { ref with renderedUrl := some m.2 } else ref
          | none => ref
        else ref
    | none => ref)

/-- `promptWords.slice(0,5).join('_').replace(/[^a-zA-Z0-9_]/g, '').toLowerCase()`. -/
def shortPromptOf (prompt : String) : String :=
  let words := (jsSplit prompt " ").filter (fun w => jsLen w > 3)
  let joined := String.intercalate "_" (words.take 5)
  jsToLower ⟨joined.data.filter (fun c =>
    ('a' ≤ c && c ≤ 'z') || ('A' ≤ c && c ≤ 'Z') || ('0' ≤ c && c ≤ '9') || c = '_')⟩

/-- The reference-preparation loop of `downloadAllMedia` (lines 628–653). -/
def prepRef (media : MediaRef) : MediaRef :=
  let media :=
    if media.type = "image" && media.metadataDalle then
      if optTruthy media.metadataDallePrompt then
        let sp := shortPromptOf (media.metadataDallePrompt.getD "")
        if !sp.isEmpty then { media with customName := some ("dalle_" ++ sp) }
        else { media with customName := some ("dalle_"
          ++ jsOrStr (jsOrOpt media.metadataDalleGenId media.fileId) "undefined") }
      else if optTruthy media.metadataDalleGenId then
        { media with customName := some ("dalle_" ++ media.metadataDalleGenId.getD "") }
      else media
    else media
  if optTruthy media.title && !optTruthy media.customName then
    { media with customName := some (jsToLower (sanitizeName (media.title.getD ""))) }
  else media

/-- Earliest match of `/\/files\/([0-9a-f\-]+)\/raw/`. -/
def sedimentPathCapture : List Char → Option (List Char)
  | [] => none
  | c :: rest =>
      let l := c :: rest
      if "/files/".data.isPrefixOf l then
        let cap := (l.drop 7).takeWhile (fun ch =>
          MediaUrlGenerator.isHexLowerChar ch || ch = '-')
        if !cap.isEmpty && "/raw".data.isPrefixOf ((l.drop 7).drop cap.length) then some cap
        else sedimentPathCapture rest
      else sedimentPathCapture rest

/-- Earliest match of `/filename%3D([^&]+)/i`. -/
def filenameParamCapture : List Char → Option (List Char)
  | [] => none
  | c :: rest =>
      let l := c :: rest
      if "filename%3d".data.isPrefixOf (l.map Char.toLower) then
        let cap := (l.drop 11).takeWhile (fun ch => ch ≠ '&')
        if cap.isEmpty then filenameParamCapture rest else some cap
      else filenameParamCapture rest

/-- Earliest match of `/\/([^\/\?]+)\?/i`. -/
def idPathCapture : List Char → Option (List Char)
  | [] => none
  | c :: rest =>
      if c = '/' then
        let cap := rest.takeWhile (fun ch => ch ≠ '/' && ch ≠ '?')
        if !cap.isEmpty && (rest.drop cap.length).head? = some '?' then some cap
        else idPathCapture rest
      else idPathCapture rest

/-- File-name synthesis for one direct URL of the scan block (lines 685–729). -/
def directUrlFileName (decode : String → String) (i : Nat) (directUrl : String) : String :=
  let isSed := jsIncludes directUrl "sdmntpr" && jsIncludes directUrl "/raw"
  let fileName :=
    if isSed then
      match sedimentPathCapture directUrl.data with
      | some cap => "dalle_" ++ (⟨cap⟩ : String) ++ ".png"
      | none => "direct-file-" ++ natToDec i
    else
      match filenameParamCapture directUrl.data with
      | some cap => decode ⟨cap⟩
      | none =>
          match idPathCapture directUrl.data with
          | some cap => "file-" ++ (⟨cap⟩ : String)
          | none => "direct-file-" ++ natToDec i
  let fileExt :=
    if isSed then "png"
    else if jsIncludes directUrl "jpg" || jsIncludes directUrl "jpeg" then "jpg"
    else if jsIncludes directUrl "png" then "png"
    else if jsIncludes directUrl "pdf" then "pdf"
    else "bin"
  if jsIncludes fileName "." then fileName else fileName ++ "." ++ fileExt

/-- `allUrlMatches`: sediment matches first, then unseen file-URL matches. -/
def allUrlMatches (conv : ConvData) : List String :=
  conv.fileUrlMatches.foldl
    (fun acc url => if acc.contains url then acc else acc ++ [url])
    conv.sedimentRawMatches

/-- Aggregate outcome of `downloadAllMedia`: the reported tally plus the
chrome download dispatches of the direct-URL pass and the number of
per-reference `downloadMedia` invocations. -/
structure BatchOutcome where
  total : Nat := 0
  completed : Nat := 0
  failed : Nat := 0
  dispatched : List (String × String) := []
  dmCalls : Nat := 0
  deriving Repr, DecidableEq

/-- `MediaDownloader.downloadAllMedia`.  The direct-URL pass increments
`completed` once per dispatched URL regardless of the chrome callback result
(lines 734–759); `results.failed` is still zero when its guard runs, so only
the zero-reference disjunct can enable it. -/
def downloadAllMedia (env : BatchEnv) (mediaReferences : List MediaRef)
    (token : String) (conversationData : Option ConvData) : BatchOutcome :=
  let refs :=
    if env.mediaExtractorLoaded then
      let refs1 :=
        match conversationData with
        | some conv =>
            if conv.sedimentSasMatches.length > 0 then
              attachSasUrls conv.sedimentSasMatches mediaReferences
            else mediaReferences
        | none => mediaReferences
      findRenderedImages env.domImages refs1
    else mediaReferences
  let total := refs.length
  let folderName :=
    match conversationData with
    | some conv => conv.folderName
    | none => "chatgpt_export"
  let refs := refs.map prepRef
  let directPass :=
    match conversationData with
    | some conv =>
        if refs.length = 0 then
          let urls := allUrlMatches conv
          (urls.length, urls.enum.map (fun (p : Nat × String) =>
            (p.2, folderName ++ "/media/" ++ directUrlFileName env.decode p.1 p.2)))
        else ((0 : Nat), ([] : List (String × String)))
    | none => ((0 : Nat), ([] : List (String × String)))
  let loopRes := refs.foldl
    (fun (acc : Nat × Nat × Nat) media =>
      let result := MediaDownloader.downloadMedia env.dm media token
        (conversationData.map (fun c => c.folderName))
      if result.success then (acc.1 + 1, acc.2.1, acc.2.2 + 1)
      else (acc.1, acc.2.1 + 1, acc.2.2 + 1))
    (0, 0, 0)
  { total := total,
    completed := directPass.1 + loopRes.1,
    failed := loopRes.2.1,
    dispatched := directPass.2,
    dmCalls := loopRes.2.2 }

end MediaDownloader

/-! ## Helper lemmas -/

theorem string_isEmpty_false_of_data_ne {s : String} (h : s.data ≠ []) :
    s.isEmpty = false := by
  rw [Bool.eq_false_iff]
  intro hc
  rw [String.isEmpty_iff] at hc
  subst hc
  exact h rfl

theorem jsIncludes_empty_sediment : jsIncludes "" "sediment://" = false := by decide

theorem data_ne_nil_of_jsIncludes_sediment {s : String}
    (h : jsIncludes s "sediment://" = true) : s.data ≠ [] := by
  intro hd
  have : s = "" := String.ext hd
  rw [this, jsIncludes_empty_sediment] at h
  exact Bool.false_ne_true h

theorem jsEndsWith_append (a b : String) : jsEndsWith (a ++ b) b = true := by
  rw [jsEndsWith, List.isSuffixOf_iff_suffix, String.data_append]
  exact List.suffix_append a.data b.data

/-! ## Claim theorems -/

/-- Claim C4 (amended): a generated-image (sediment) reference always receives
a `.png` extension, and its base name is the custom-name hint when present,
otherwise `dalle_` followed by the tail of the file id — not
`<canonicalId>-<sanitizedHintOrTitle>`. -/
theorem claim_C4_sediment_naming (mediaRef : MediaRef) (contentType : Option String)
    (ap : String) (h1 : mediaRef.assetPointer = some ap)
    (h2 : jsIncludes ap "sediment://" = true) :
    FileUtils.createSuitableFilename mediaRef contentType
      = sedimentBaseName mediaRef ++ ".png" ∧
    jsEndsWith (FileUtils.createSuitableFilename mediaRef contentType) ".png" = true := by
  have hne : ap.isEmpty = false :=
    string_isEmpty_false_of_data_ne (data_ne_nil_of_jsIncludes_sediment h2)
  have hmain : FileUtils.createSuitableFilename mediaRef contentType
      = sedimentBaseName mediaRef ++ ".png" := by
    rw [FileUtils.createSuitableFilename, sedimentBaseName]
    simp only [h1, optTruthy, Option.getD_some, hne, Bool.not_false, Bool.true_and, h2,
      if_pos]
  exact ⟨hmain, hmain ▸ jsEndsWith_append _ ".png"⟩

/-- Witness for C4's amended theorem at the spec's end-to-end fixture. -/
theorem claim_C4_witness :
    FileUtils.createSuitableFilename
      { assetPointer := some "sediment://file_abcd1234", title := some "a red fox" }
      (some "image/png")
      = sedimentBaseName
          { assetPointer := some "sediment://file_abcd1234", title := some "a red fox" }
        ++ ".png" ∧
    jsEndsWith (FileUtils.createSuitableFilename
      { assetPointer := some "sediment://file_abcd1234", title := some "a red fox" }
      (some "image/png")) ".png" = true :=
  claim_C4_sediment_naming _ (some "image/png") "sediment://file_abcd1234" rfl (by decide)

/-- Counterexample for C4 as stated: the spec's fixture reference (rawPointer
`sediment://file_abcd1234`, title hint `a red fox`) is named
`dalle_file_abcd1234.png`, not `abcd1234-a_red_fox.png`; even with the
orchestrator's sanitized hint in `customName` the name is `a_red_fox.png`. -/
theorem claim_C4_counterexample :
    FileUtils.createSuitableFilename
      { assetPointer := some "sediment://file_abcd1234", title := some "a red fox" }
      (some "image/png") = "dalle_file_abcd1234.png" ∧
    FileUtils.createSuitableFilename
      { assetPointer := some "sediment://file_abcd1234", title := some "a red fox",
        customName := some "a_red_fox" }
      (some "image/png") = "a_red_fox.png" ∧
    ("dalle_file_abcd1234.png" ≠ "abcd1234-a_red_fox.png"
      ∧ "a_red_fox.png" ≠ "abcd1234-a_red_fox.png") := by decide

/-- Claim C6: a buffer whose first four bytes are the PNG magic number is
classified `image/png` by the byte-signature classifier and judged binary by
the blob validator for every claimed content type. -/
theorem claim_C6_png_magic (bs rest : List Nat) (claimed : String)
    (h : bs = 0x89 :: 0x50 :: 0x4E :: 0x47 :: rest) :
    FileUtils.detectFileTypeFromBytes bs = some "image/png" ∧
    FileUtils.isBinaryBlob claimed bs = true := by
  subst h
  constructor
  · rw [FileUtils.detectFileTypeFromBytes]
    simp [FileUtils.byteAt]
  · rw [FileUtils.isBinaryBlob]
    by_cases hm : FileUtils.claimedTypeIsMedia claimed
    · simp [hm]
    · simp [hm, FileUtils.byteAt, List.take_succ_cons]

/-- Witness for C6 with the claimed content type `application/json`. -/
theorem claim_C6_witness :
    FileUtils.detectFileTypeFromBytes [0x89, 0x50, 0x4E, 0x47] = some "image/png" ∧
    FileUtils.isBinaryBlob "application/json" [0x89, 0x50, 0x4E, 0x47] = true :=
  claim_C6_png_magic [0x89, 0x50, 0x4E, 0x47] [] "application/json" rfl

/-- Claim C9 (amended): the binary-versus-non-binary judgment depends only on
the payload bytes whenever neither claimed content type passes the media-type
short circuit; the full claim fails because that short circuit consults the
claimed type. -/
theorem claim_C9_bytes_only (t t' : String) (bs : List Nat)
    (h : FileUtils.claimedTypeIsMedia t = false)
    (h' : FileUtils.claimedTypeIsMedia t' = false) :
    FileUtils.isBinaryBlob t bs = FileUtils.isBinaryBlob t' bs := by
  rw [FileUtils.isBinaryBlob, FileUtils.isBinaryBlob, h, h']

/-- Witness for C9's amended theorem on a concrete buffer. -/
theorem claim_C9_witness :
    FileUtils.claimedTypeIsMedia "text/plain" = false ∧
    FileUtils.claimedTypeIsMedia "application/json" = false ∧
    FileUtils.isBinaryBlob "text/plain" [0, 1, 2, 3]
      = FileUtils.isBinaryBlob "application/json" [0, 1, 2, 3] :=
  ⟨by decide, by decide,
    claim_C9_bytes_only "text/plain" "application/json" [0, 1, 2, 3]
      (by decide) (by decide)⟩

/-- Counterexample for C9 as stated: two payloads with identical bytes (the
two-byte JSON object) but different claimed content types receive different
binary-versus-non-binary verdicts. -/
theorem claim_C9_counterexample :
    FileUtils.isBinaryBlob "image/png" [0x7B, 0x7D] = true ∧
    FileUtils.isBinaryBlob "application/json" [0x7B, 0x7D] = false := by decide

/-- The XOR loop is an involution when the key is nonempty and all code units
are in the UTF-16 range. -/
theorem xorLoop_involutive (key : List Nat) (hk : key ≠ [])
    (hkb : ∀ k ∈ key, k < 65536) :
    ∀ (token : List Nat) (i : Nat), (∀ c ∈ token, c < 65536) →
      AuthManager.xorLoop key i (AuthManager.xorLoop key i token) = token := by
  intro token
  induction token with
  | nil => intro i _; rfl
  | cons c rest ih =>
      intro i hb
      have hc : c < 65536 := hb c (List.mem_cons_self c rest)
      have hidx : i % key.length < key.length :=
        Nat.mod_lt _ (List.length_pos.mpr hk)
      have hkmem : key.getD (i % key.length) 0 ∈ key := by
        rw [List.getD_eq_getElem key 0 hidx]
        exact List.getElem_mem hidx
      have hkv : key.getD (i % key.length) 0 < 65536 := hkb _ hkmem
      have hx : c ^^^ key.getD (i % key.length) 0 < 65536 := by
        have h16 : (65536 : Nat) = 2 ^ 16 := by norm_num
        rw [h16] at hc hkv ⊢
        exact Nat.xor_lt_two_pow hc hkv
      rw [AuthManager.xorLoop, AuthManager.xorLoop]
      rw [Nat.mod_eq_of_lt hx, Nat.xor_cancel_right, Nat.mod_eq_of_lt hc]
      rw [ih (i + 1) (fun c hm => hb c (List.mem_cons_of_mem _ hm))]

/-- Claim C10: XOR obfuscation is an involution (for a nonempty key and
UTF-16 code units), and `getAccessToken` on a cache hit before expiry returns
exactly the originally cached token. -/
theorem claim_C10_token_roundtrip (token key : List Nat) (cache : AuthManager.SessionCache)
    (now e : Nat) (hk : key ≠ []) (hkb : ∀ k ∈ key, k < 65536)
    (htb : ∀ c ∈ token, c < 65536) :
    AuthManager.decryptToken (AuthManager.encryptToken token key) key = token ∧
    (cache.token = some (AuthManager.encryptToken token key) →
      cache.tokenEncryptionKey = key → cache.expiry = some e → e ≠ 0 → now < e →
      token ≠ [] → AuthManager.getAccessToken cache now = some token) := by
  have hinv : AuthManager.decryptToken (AuthManager.encryptToken token key) key = token :=
    xorLoop_involutive key hk hkb token 0 htb
  refine ⟨hinv, fun h1 h2 h3 h4 h5 h6 => ?_⟩
  have henc : AuthManager.encryptToken token key ≠ [] := by
    cases token with
    | nil => exact absurd rfl h6
    | cons c rest => simp [AuthManager.encryptToken, AuthManager.xorLoop]
  have hhit : AuthManager.cacheHit cache now = true := by
    rw [AuthManager.cacheHit, h1, h3]
    simp [List.isEmpty_iff, henc, h4, h5]
  rw [AuthManager.getAccessToken, if_pos hhit, h1, h2]
  simp only [Option.getD_some]
  exact congrArg some hinv

/-- Witness for C10 on a concrete token, key and cache state. -/
theorem claim_C10_witness :
    AuthManager.decryptToken (AuthManager.encryptToken [104, 105] [42]) [42] = [104, 105] ∧
    AuthManager.getAccessToken
      { token := some (AuthManager.encryptToken [104, 105] [42]),
        expiry := some 1000, tokenEncryptionKey := [42] } 500 = some [104, 105] :=
  have h := claim_C10_token_roundtrip [104, 105] [42]
    { token := some (AuthManager.encryptToken [104, 105] [42]),
      expiry := some 1000, tokenEncryptionKey := [42] } 500 1000
    (by decide) (by decide) (by decide)
  ⟨h.1, h.2 rfl rfl rfl (by decide) (by decide) (by decide)⟩

/-- When the prefix is no longer than the first summand, `startsWith` on an
appended string only looks at the first summand. -/
theorem jsStartsWith_append_of_le (a b p : String) (h : jsLen p ≤ jsLen a) :
    jsStartsWith (a ++ b) p = jsStartsWith a p := by
  simp only [jsLen] at h
  have key : p.data <+: a.data ++ b.data ↔ p.data <+: a.data := by
    constructor
    · intro hp
      rw [List.prefix_iff_eq_take] at hp ⊢
      rwa [List.take_append_of_le_length h] at hp
    · intro hp
      exact hp.trans (List.prefix_append a.data b.data)
  rw [jsStartsWith, jsStartsWith, String.data_append, Bool.eq_iff_iff,
    List.isPrefixOf_iff_prefix, List.isPrefixOf_iff_prefix]
  exact key

/-- Claim C1 (amended): for new-format generated-image identifiers the
candidate list begins with the direct storage-mirror URLs, exactly one per
configured region, and no later (API-endpoint or CDN) candidate is a
storage-mirror URL; for old-format generated-image, user-upload and unknown
identifiers the list begins with API endpoints instead. -/
theorem claim_C1_mirror_tier_first (regions : List String) (fileId domain : String)
    (hNew : MediaUrlGenerator.isDalleImageNew fileId = true)
    (hdom : domain = "chat.openai.com" ∨ domain = "chatgpt.com") :
    (MediaUrlGenerator.generateAlternativeUrls (some regions) fileId domain).take
        regions.length
      = regions.map (fun r => MediaUrlGenerator.sedimentMirrorUrl r
          (MediaUrlGenerator.newDalleFileUuid fileId)) ∧
    ∀ u ∈ (MediaUrlGenerator.generateAlternativeUrls (some regions) fileId
        domain).drop regions.length,
      jsStartsWith u "https://sdmntpr" = false := by
  rw [MediaUrlGenerator.generateAlternativeUrls, if_pos hNew]
  simp only [Option.getD_some]
  have hlen : (regions.map (fun r => MediaUrlGenerator.sedimentMirrorUrl r
      (MediaUrlGenerator.newDalleFileUuid fileId))).length = regions.length :=
    List.length_map _ _
  constructor
  · rw [List.append_assoc, List.take_left' hlen]
  · rw [List.append_assoc, List.drop_left' hlen]
    intro u hu
    simp only [List.mem_append, List.mem_cons, List.mem_singleton,
      List.not_mem_nil, or_false] at hu
    rcases hdom with rfl | rfl <;>
      rcases hu with (rfl | rfl | rfl | rfl) | (rfl | rfl) <;>
      rw [jsStartsWith_append_of_le _ _ _ (by decide)] <;> decide

/-- Witness for C1's amended theorem on a concrete new-format identifier. -/
theorem claim_C1_witness :
    (MediaUrlGenerator.generateAlternativeUrls (some ["westus2", "eastus2"])
        "sediment://file_0123456789abcdef0123456789abcdef" "chatgpt.com").take 2
      = ["westus2", "eastus2"].map (fun r => MediaUrlGenerator.sedimentMirrorUrl r
          (MediaUrlGenerator.newDalleFileUuid
            "sediment://file_0123456789abcdef0123456789abcdef")) ∧
    ∀ u ∈ (MediaUrlGenerator.generateAlternativeUrls (some ["westus2", "eastus2"])
        "sediment://file_0123456789abcdef0123456789abcdef" "chatgpt.com").drop 2,
      jsStartsWith u "https://sdmntpr" = false :=
  claim_C1_mirror_tier_first ["westus2", "eastus2"]
    "sediment://file_0123456789abcdef0123456789abcdef" "chatgpt.com"
    (by decide) (Or.inr rfl)

/-- Counterexample for C1 as stated: for a user-upload identifier and for an
old-format generated-image identifier the candidate list begins with a
backend API endpoint, not a storage-mirror URL. -/
theorem claim_C1_counterexample :
    (MediaUrlGenerator.generateAlternativeUrls
        (some MediaUrlGenerator.configSedimentRegions)
        "file-service://file-abc123" "chat.openai.com").head?
      = some "https://chat.openai.com/backend-api/files/content/file-abc123?format=binary" ∧
    jsStartsWith
      "https://chat.openai.com/backend-api/files/content/file-abc123?format=binary"
      "https://sdmntpr" = false ∧
    (MediaUrlGenerator.generateAlternativeUrls
        (some MediaUrlGenerator.configSedimentRegions)
        "sediment://abc123" "chat.openai.com").head?
      = some "https://chat.openai.com/backend-api/sediment/content/abc123" ∧
    jsStartsWith "https://chat.openai.com/backend-api/sediment/content/abc123"
      "https://sdmntpr" = false := by decide

/-! ## C5: the de-duplication loop yields distinct names -/

theorem digitChar10_toNat {m : Nat} (hm : m < 10) : (digitChar10 m).toNat = 48 + m := by
  interval_cases m <;> decide

theorem natToDec_ne_nil (n : Nat) : (natToDec n).data ≠ [] := by
  rw [natToDec]
  split
  · simp
  · rw [String.data_append]
    simp

theorem decVal_append (l : List Char) (c : Char) :
    decVal (l ++ [c]) = 10 * decVal l + (c.toNat - 48) := by
  rw [decVal, decVal, List.foldl_append]
  rfl

theorem decVal_natToDec (n : Nat) : decVal (natToDec n).data = n := by
  induction n using Nat.strong_induction_on with
  | _ n ih =>
    rw [natToDec]
    split
    · next h =>
      show decVal [digitChar10 n] = n
      rw [decVal]
      show 10 * 0 + ((digitChar10 n).toNat - 48) = n
      rw [digitChar10_toNat h]
      omega
    · next h =>
      have hlt : n / 10 < n := Nat.div_lt_self (by omega) (by omega)
      rw [String.data_append]
      show decVal ((natToDec (n / 10)).data ++ [digitChar10 (n % 10)]) = n
      rw [decVal_append, ih _ hlt, digitChar10_toNat (Nat.mod_lt n (by omega))]
      omega

theorem natToDec_injective : Function.Injective natToDec := by
  intro m n h
  have h2 := congrArg (fun s => decVal s.data) h
  simpa [decVal_natToDec] using h2

theorem lastIdxOfGo_lt_length {c : Char} :
    ∀ {l : List Char} {i : Nat}, lastIdxOfGo c l = some i → i < l.length := by
  intro l
  induction l with
  | nil => intro i h; simp [lastIdxOfGo] at h
  | cons d rest ih =>
      intro i h
      rw [lastIdxOfGo] at h
      cases hr : lastIdxOfGo c rest with
      | some j =>
          rw [hr] at h
          simp only [Option.some.injEq] at h
          have := ih hr
          simp only [List.length_cons]
          omega
      | none =>
          rw [hr] at h
          by_cases hdc : d = c
          · rw [if_pos hdc] at h
            simp only [Option.some.injEq] at h
            simp only [List.length_cons]
            omega
          · rw [if_neg hdc] at h
            simp at h

theorem insertCounter_data (base : String) (k : Nat) :
    (ChatGPTHandler.insertCounter base k).data =
      match jsLastIndexOf base '.' with
      | some i => (jsTake base i).data ++ '_' :: ((natToDec k).data ++ base.data.drop i)
      | none => base.data ++ '_' :: (natToDec k).data := by
  rw [ChatGPTHandler.insertCounter]
  cases jsLastIndexOf base '.' with
  | some i =>
      show (jsTake base i ++ "_" ++ natToDec k ++ ⟨base.data.drop i⟩).data = _
      simp only [String.data_append]
      simp
  | none =>
      show (base ++ "_" ++ natToDec k).data = _
      simp only [String.data_append]
      simp

theorem insertCounter_inj (base : String) {j k : Nat}
    (h : ChatGPTHandler.insertCounter base j = ChatGPTHandler.insertCounter base k) :
    j = k := by
  have hd := congrArg String.data h
  rw [insertCounter_data, insertCounter_data] at hd
  cases hcase : jsLastIndexOf base '.' with
  | some i =>
      rw [hcase] at hd
      simp only [] at hd
      have h1 := List.append_cancel_left hd
      injection h1 with _ h2
      have h3 := List.append_cancel_right h2
      exact natToDec_injective (String.ext h3)
  | none =>
      rw [hcase] at hd
      simp only [] at hd
      have h1 := List.append_cancel_left hd
      injection h1 with _ h2
      exact natToDec_injective (String.ext h2)

theorem insertCounter_length (base : String) (k : Nat) :
    base.data.length < (ChatGPTHandler.insertCounter base k).data.length := by
  rw [insertCounter_data]
  have hnk : 0 < (natToDec k).data.length :=
    List.length_pos.mpr (natToDec_ne_nil k)
  cases hcase : jsLastIndexOf base '.' with
  | some i =>
      have hi : i < base.data.length := lastIdxOfGo_lt_length hcase
      simp only [List.length_append, List.length_cons, jsTake, List.length_take,
        List.length_drop]
      rw [Nat.min_eq_left (Nat.le_of_lt hi)]
      omega
  | none =>
      simp only [List.length_append, List.length_cons]
      omega

theorem candidateName_injective (base : String) :
    Function.Injective (ChatGPTHandler.candidateName base) := by
  intro j k h
  match j, k with
  | 0, 0 => rfl
  | 0, k + 1 =>
      exfalso
      have hlen := insertCounter_length base (k + 1)
      rw [ChatGPTHandler.candidateName, ChatGPTHandler.candidateName] at h
      rw [← h] at hlen
      omega
  | j + 1, 0 =>
      exfalso
      have hlen := insertCounter_length base (j + 1)
      rw [ChatGPTHandler.candidateName, ChatGPTHandler.candidateName] at h
      rw [h] at hlen
      omega
  | j + 1, k + 1 =>
      rw [ChatGPTHandler.candidateName, ChatGPTHandler.candidateName] at h
      exact insertCounter_inj base h

theorem exists_candidate_not_mem (used : List String) (base : String) :
    ∃ j, j < used.length + 1 ∧ ChatGPTHandler.candidateName base j ∉ used := by
  by_contra hc
  push_neg at hc
  have hsub : ((List.range (used.length + 1)).map
      (ChatGPTHandler.candidateName base)) ⊆ used := by
    intro x hx
    rw [List.mem_map] at hx
    obtain ⟨j, hj, rfl⟩ := hx
    exact hc j (List.mem_range.mp hj)
  have hnd : ((List.range (used.length + 1)).map
      (ChatGPTHandler.candidateName base)).Nodup :=
    List.Nodup.map (candidateName_injective base) (List.nodup_range _)
  have h1 : ((List.range (used.length + 1)).map
      (ChatGPTHandler.candidateName base)).toFinset.card = used.length + 1 := by
    rw [List.toFinset_card_of_nodup hnd, List.length_map, List.length_range]
  have h2 : ((List.range (used.length + 1)).map
      (ChatGPTHandler.candidateName base)).toFinset ⊆ used.toFinset :=
    fun x hx => List.mem_toFinset.mpr (hsub (List.mem_toFinset.mp hx))
  have h3 := Finset.card_le_card h2
  have h4 := List.toFinset_card_le used
  omega

theorem dedupeGo_not_mem (used : List String) (base : String) :
    ∀ (fuel : Nat) (k : Nat),
      (∃ j, j < fuel ∧ ChatGPTHandler.candidateName base (k + j) ∉ used) →
      ChatGPTHandler.dedupeGo used base fuel k ∉ used := by
  intro fuel
  induction fuel with
  | zero =>
      intro k h
      obtain ⟨j, hj, _⟩ := h
      omega
  | succ fuel ih =>
      intro k h
      obtain ⟨j, hj, hnm⟩ := h
      by_cases hc : ChatGPTHandler.candidateName base k ∈ used
      · have hcb : used.contains (ChatGPTHandler.candidateName base k) = true :=
          List.elem_iff.mpr hc
        rw [ChatGPTHandler.dedupeGo]
        simp only [hcb, if_true]
        apply ih
        match j, hj, hnm with
        | 0, _, hnm => exact absurd hc (by simpa using hnm)
        | j' + 1, hj, hnm =>
            refine ⟨j', by omega, ?_⟩
            have harith : k + 1 + j' = k + (j' + 1) := by omega
            rw [harith]
            exact hnm
      · have hcb : used.contains (ChatGPTHandler.candidateName base k) = false := by
          rw [Bool.eq_false_iff]
          intro hx
          exact hc (List.elem_iff.mp hx)
        rw [ChatGPTHandler.dedupeGo]
        simp only [hcb, Bool.false_eq_true, if_false]
        exact hc

theorem dedupeFilename_not_mem (used : List String) (base : String) :
    ChatGPTHandler.dedupeFilename used base ∉ used := by
  obtain ⟨j, hj, hnm⟩ := exists_candidate_not_mem used base
  exact dedupeGo_not_mem used base (used.length + 1) 0 ⟨j, hj, by simpa using hnm⟩

theorem dedupeGo_finds (used : List String) (base : String) (m : Nat)
    (hmem : ∀ i, i < m → ChatGPTHandler.candidateName base i ∈ used)
    (hnot : ChatGPTHandler.candidateName base m ∉ used) :
    ∀ (fuel : Nat) (k : Nat), k ≤ m → m < k + fuel →
      ChatGPTHandler.dedupeGo used base fuel k = ChatGPTHandler.candidateName base m := by
  intro fuel
  induction fuel with
  | zero => intro k h1 h2; omega
  | succ fuel ih =>
      intro k h1 h2
      by_cases hk : k = m
      · subst hk
        have hcb : used.contains (ChatGPTHandler.candidateName base k) = false := by
          rw [Bool.eq_false_iff]
          intro hx
          exact hnot (List.elem_iff.mp hx)
        rw [ChatGPTHandler.dedupeGo]
        simp only [hcb, Bool.false_eq_true, if_false]
      · have hklt : k < m := by omega
        have hcb : used.contains (ChatGPTHandler.candidateName base k) = true :=
          List.elem_iff.mpr (hmem k hklt)
        rw [ChatGPTHandler.dedupeGo]
        simp only [hcb, if_true]
        exact ih (k + 1) (by omega) (by omega)

theorem assign_fold_inv :
    ∀ (bases : List String) (names used : List String),
      names.Nodup → (∀ x, x ∈ used ↔ x ∈ names) →
      (bases.foldl ChatGPTHandler.assignStep (names, used)).1.Nodup ∧
      (∀ x, x ∈ (bases.foldl ChatGPTHandler.assignStep (names, used)).2
        ↔ x ∈ (bases.foldl ChatGPTHandler.assignStep (names, used)).1) ∧
      (bases.foldl ChatGPTHandler.assignStep (names, used)).1.length
        = names.length + bases.length := by
  intro bases
  induction bases with
  | nil =>
      intro names used h1 h2
      exact ⟨h1, h2, by simp⟩
  | cons b rest ih =>
      intro names used h1 h2
      rw [List.foldl_cons]
      have hname : ChatGPTHandler.dedupeFilename used b ∉ used :=
        dedupeFilename_not_mem used b
      have hnotnames : ChatGPTHandler.dedupeFilename used b ∉ names :=
        fun hx => hname ((h2 _).mpr hx)
      have h1' : (names ++ [ChatGPTHandler.dedupeFilename used b]).Nodup := by
        simp [List.nodup_append, h1, hnotnames]
      have h2' : ∀ x, x ∈ (ChatGPTHandler.dedupeFilename used b :: used)
          ↔ x ∈ names ++ [ChatGPTHandler.dedupeFilename used b] := by
        intro x
        simp only [List.mem_cons, List.mem_append, List.mem_singleton, h2 x]
        tauto
      have hres := ih (names ++ [ChatGPTHandler.dedupeFilename used b])
        (ChatGPTHandler.dedupeFilename used b :: used) h1' h2'
      have hstep : ChatGPTHandler.assignStep (names, used) b
          = (names ++ [ChatGPTHandler.dedupeFilename used b],
             ChatGPTHandler.dedupeFilename used b :: used) := rfl
      rw [hstep]
      refine ⟨hres.1, hres.2.1, ?_⟩
      rw [hres.2.2]
      simp [List.length_append]
      omega

theorem assign_replicate (b : String) :
    ∀ (n j : Nat),
      (List.replicate n b).foldl ChatGPTHandler.assignStep
          ((List.range j).map (ChatGPTHandler.candidateName b),
           ((List.range j).map (ChatGPTHandler.candidateName b)).reverse)
        = ((List.range (j + n)).map (ChatGPTHandler.candidateName b),
           ((List.range (j + n)).map (ChatGPTHandler.candidateName b)).reverse) := by
  intro n
  induction n with
  | zero => intro j; simp
  | succ n ih =>
      intro j
      rw [List.replicate_succ, List.foldl_cons]
      have hdd : ChatGPTHandler.dedupeFilename
          (((List.range j).map (ChatGPTHandler.candidateName b)).reverse) b
          = ChatGPTHandler.candidateName b j := by
        have hlen : (((List.range j).map (ChatGPTHandler.candidateName b)).reverse).length
            = j := by
          simp
        rw [ChatGPTHandler.dedupeFilename, hlen]
        apply dedupeGo_finds
        · intro i hi
          rw [List.mem_reverse]
          exact List.mem_map.mpr ⟨i, List.mem_range.mpr hi, rfl⟩
        · intro hx
          rw [List.mem_reverse] at hx
          obtain ⟨i, hir, heq⟩ := List.mem_map.mp hx
          have := candidateName_injective b heq
          subst this
          exact absurd (List.mem_range.mp hir) (by omega)
        · omega
        · omega
      have hstep : ChatGPTHandler.assignStep
          ((List.range j).map (ChatGPTHandler.candidateName b),
           ((List.range j).map (ChatGPTHandler.candidateName b)).reverse) b
          = ((List.range (j + 1)).map (ChatGPTHandler.candidateName b),
             ((List.range (j + 1)).map (ChatGPTHandler.candidateName b)).reverse) := by
        rw [ChatGPTHandler.assignStep]
        simp only [hdd]
        simp [List.range_succ, List.reverse_append]
      rw [hstep, ih (j + 1)]
      have harith : j + 1 + n = j + (n + 1) := by omega
      rw [harith]

/-- Claim C5: batched filename assignment produces pairwise-distinct names,
every assigned name is recorded in the registry, and N references with the
same base name receive `base`, `base_1`, `base_2`, … in order. -/
theorem claim_C5_collision_free (bases : List String) (n : Nat) (b : String) :
    (ChatGPTHandler.assignFilenames bases).1.length = bases.length ∧
    (ChatGPTHandler.assignFilenames bases).1.Nodup ∧
    (∀ x, x ∈ (ChatGPTHandler.assignFilenames bases).2
      ↔ x ∈ (ChatGPTHandler.assignFilenames bases).1) ∧
    (ChatGPTHandler.assignFilenames (List.replicate n b)).1
      = (List.range n).map (ChatGPTHandler.candidateName b) := by
  have hinv := assign_fold_inv bases [] [] List.nodup_nil (by simp)
  have hrep := assign_replicate b n 0
  refine ⟨by simpa using hinv.2.2, hinv.1, hinv.2.1, ?_⟩
  rw [ChatGPTHandler.assignFilenames]
  simp only [List.range_zero, List.map_nil, List.reverse_nil, Nat.zero_add] at hrep
  rw [hrep]

/-! ## C3: the candidate loop de-duplicates redirects and terminates -/

theorem mem_of_lookup_eq_some {α β : Type} [BEq α] [LawfulBEq α]
    {l : List (α × β)} {u : α} {o : β} (h : l.lookup u = some o) : (u, o) ∈ l := by
  induction l with
  | nil => simp [List.lookup] at h
  | cons p rest ih =>
      obtain ⟨k, v⟩ := p
      unfold List.lookup at h
      split at h
      · next he =>
        have hk : u = k := eq_of_beq he
        have hv : v = o := Option.some_injective _ h
        subst hk
        subst hv
        exact List.mem_cons_self _ _
      · exact List.mem_cons_of_mem _ (ih h)

theorem redirect_mem_targets {env : MediaDownloader.FetchEnv} {u r : String}
    (h : MediaDownloader.lookupOutcome env.bg u = .redirect r
      ∨ MediaDownloader.lookupOutcome env.direct u = .redirect r) :
    r ∈ MediaDownloader.redirectTargets env := by
  rw [MediaDownloader.redirectTargets, List.mem_filterMap]
  rcases h with h | h
  · rw [MediaDownloader.lookupOutcome] at h
    cases hl : env.bg.lookup u with
    | none => rw [hl] at h; exact absurd h (by simp)
    | some o =>
        rw [hl] at h
        dsimp only at h
        exact ⟨(u, o), List.mem_append_left _ (mem_of_lookup_eq_some hl), by rw [h]⟩
  · rw [MediaDownloader.lookupOutcome] at h
    cases hl : env.direct.lookup u with
    | none => rw [hl] at h; exact absurd h (by simp)
    | some o =>
        rw [hl] at h
        dsimp only at h
        exact ⟨(u, o), List.mem_append_right _ (mem_of_lookup_eq_some hl), by rw [h]⟩

theorem length_filter_le_of_imp {α : Type} (p q : α → Bool) (l : List α)
    (himp : ∀ x ∈ l, q x = true → p x = true) :
    (l.filter q).length ≤ (l.filter p).length := by
  rw [← List.countP_eq_length_filter, ← List.countP_eq_length_filter]
  exact List.countP_mono_left himp

theorem length_filter_lt_of_witness {α : Type} (p q : α → Bool) (l : List α)
    (himp : ∀ x ∈ l, q x = true → p x = true)
    (x : α) (hx : x ∈ l) (hpx : p x = true) (hqx : q x = false) :
    (l.filter q).length < (l.filter p).length := by
  induction l with
  | nil => cases hx
  | cons y rest ih =>
      have himp' : ∀ z ∈ rest, q z = true → p z = true :=
        fun z hz => himp z (List.mem_cons_of_mem _ hz)
      rcases List.mem_cons.mp hx with rfl | hxr
      · rw [List.filter_cons, List.filter_cons, hqx, hpx]
        simp only [if_false, if_true, List.length_cons, Bool.false_eq_true]
        exact Nat.lt_succ_of_le (length_filter_le_of_imp p q rest himp')
      · cases hqy : q y
        · rw [List.filter_cons, List.filter_cons, hqy]
          cases hpy : p y
          · simp only [Bool.false_eq_true, if_false]
            exact ih himp' hxr
          · simp only [Bool.false_eq_true, if_false, if_true, List.length_cons]
            exact Nat.lt_succ_of_lt (ih himp' hxr)
        · have hpy : p y = true := himp y (List.mem_cons_self _ _) hqy
          rw [List.filter_cons, List.filter_cons, hqy, hpy]
          simp only [if_true, List.length_cons]
          exact Nat.succ_lt_succ (ih himp' hxr)

theorem mu_push_lt (env : MediaDownloader.FetchEnv) (queue : List String) (r : String)
    (i : Nat) (hlt : i < queue.length) (hr : r ∈ MediaDownloader.redirectTargets env) :
    ((MediaDownloader.redirectTargets env).filter
        (fun t => !(MediaDownloader.pushIfNew queue r).contains t)).length
      + ((MediaDownloader.pushIfNew queue r).length - (i + 1))
    < ((MediaDownloader.redirectTargets env).filter
        (fun t => !queue.contains t)).length + (queue.length - i) := by
  rw [MediaDownloader.pushIfNew]
  by_cases hc : queue.contains r
  · rw [if_pos hc]
    omega
  · rw [if_neg hc]
    have hflt : ((MediaDownloader.redirectTargets env).filter
        (fun t => !(queue ++ [r]).contains t)).length
        < ((MediaDownloader.redirectTargets env).filter
            (fun t => !queue.contains t)).length := by
      apply length_filter_lt_of_witness _ _ _ ?_ r hr ?_ ?_
      · intro x _ hq
        rw [Bool.not_eq_true'] at hq ⊢
        rw [Bool.eq_false_iff] at hq ⊢
        intro hmem
        exact hq (List.elem_iff.mpr (List.mem_append_left _ (List.elem_iff.mp hmem)))
      · rw [Bool.not_eq_true']
        rw [Bool.eq_false_iff]
        exact fun hmem => hc hmem
      · have hcr : (queue ++ [r]).contains r = true :=
          List.elem_iff.mpr (List.mem_append_right _ (List.mem_singleton.mpr rfl))
        rw [hcr]
        rfl
    simp only [List.length_append, List.length_singleton]
    omega

theorem tryUrlsGo_ne_none (env : MediaDownloader.FetchEnv) :
    ∀ (fuel : Nat) (queue : List String) (i : Nat) (errors jsonUrls : List String)
      (fetches : Nat),
      ((MediaDownloader.redirectTargets env).filter
          (fun t => !queue.contains t)).length + (queue.length - i) < fuel →
      MediaDownloader.tryUrlsGo env fuel queue i errors jsonUrls fetches ≠ none := by
  intro fuel
  induction fuel with
  | zero => intro queue i errors jsonUrls fetches h; omega
  | succ fuel ih =>
      intro queue i errors jsonUrls fetches h
      rw [MediaDownloader.tryUrlsGo]
      by_cases hlt : i < queue.length
      · rw [dif_pos hlt]
        dsimp only
        cases hbg : MediaDownloader.lookupOutcome env.bg (queue.get ⟨i, hlt⟩) with
        | ok rs => simp
        | redirect r =>
            apply ih
            have := mu_push_lt env queue r i hlt (redirect_mem_targets (Or.inl hbg))
            omega
        | thrown m =>
            cases hdir : MediaDownloader.lookupOutcome env.direct (queue.get ⟨i, hlt⟩) with
            | ok rs => simp
            | redirect r =>
                apply ih
                have := mu_push_lt env queue r i hlt (redirect_mem_targets (Or.inr hdir))
                omega
            | thrown m2 => apply ih; omega
            | nullResult => apply ih; omega
        | nullResult =>
            cases hdir : MediaDownloader.lookupOutcome env.direct (queue.get ⟨i, hlt⟩) with
            | ok rs => simp
            | redirect r =>
                apply ih
                have := mu_push_lt env queue r i hlt (redirect_mem_targets (Or.inr hdir))
                omega
            | thrown m2 => apply ih; omega
            | nullResult => apply ih; omega
      · rw [dif_neg hlt]
        simp

theorem pushIfNew_extra (env : MediaDownloader.FetchEnv) (queue : List String)
    (r : String) (rq : List String)
    (hex : ∃ extra, rq = MediaDownloader.pushIfNew queue r ++ extra ∧ extra.Nodup ∧
      ∀ u ∈ extra, u ∉ MediaDownloader.pushIfNew queue r
        ∧ u ∈ MediaDownloader.redirectTargets env)
    (hr : r ∈ MediaDownloader.redirectTargets env) :
    ∃ extra, rq = queue ++ extra ∧ extra.Nodup ∧
      ∀ u ∈ extra, u ∉ queue ∧ u ∈ MediaDownloader.redirectTargets env := by
  obtain ⟨extra, heq, hnd, hprop⟩ := hex
  rw [MediaDownloader.pushIfNew] at heq hprop
  by_cases hc : queue.contains r
  · rw [if_pos hc] at heq hprop
    exact ⟨extra, heq, hnd, hprop⟩
  · rw [if_neg hc] at heq hprop
    refine ⟨r :: extra, ?_, ?_, ?_⟩
    · rw [heq, List.append_assoc, List.singleton_append]
    · rw [List.nodup_cons]
      refine ⟨fun hre => ?_, hnd⟩
      exact (hprop r hre).1
        (List.mem_append_right _ (List.mem_singleton.mpr rfl))
    · intro u hu
      rcases List.mem_cons.mp hu with rfl | hue
      · exact ⟨fun hm => hc (List.elem_iff.mpr hm), hr⟩
      · exact ⟨fun hm => (hprop u hue).1 (List.mem_append_left _ hm), (hprop u hue).2⟩

theorem tryUrlsGo_queue_inv (env : MediaDownloader.FetchEnv) :
    ∀ (fuel : Nat) (queue : List String) (i : Nat) (errors jsonUrls : List String)
      (fetches : Nat) (res : MediaDownloader.LoopResult),
      MediaDownloader.tryUrlsGo env fuel queue i errors jsonUrls fetches = some res →
      ∃ extra, res.queue = queue ++ extra ∧ extra.Nodup ∧
        ∀ u ∈ extra, u ∉ queue ∧ u ∈ MediaDownloader.redirectTargets env := by
  intro fuel
  induction fuel with
  | zero =>
      intro queue i errors jsonUrls fetches res h
      rw [MediaDownloader.tryUrlsGo] at h
      exact absurd h (by simp)
  | succ fuel ih =>
      intro queue i errors jsonUrls fetches res h
      rw [MediaDownloader.tryUrlsGo] at h
      by_cases hlt : i < queue.length
      · rw [dif_pos hlt] at h
        dsimp only at h
        cases hbg : MediaDownloader.lookupOutcome env.bg (queue.get ⟨i, hlt⟩) with
        | ok rs =>
            rw [hbg] at h
            dsimp only at h
            injection h with h2
            subst h2
            exact ⟨[], by simp, List.nodup_nil, by simp⟩
        | redirect r =>
            rw [hbg] at h
            dsimp only at h
            exact pushIfNew_extra env queue r res.queue
              (ih _ _ _ _ _ _ h) (redirect_mem_targets (Or.inl hbg))
        | thrown m =>
            rw [hbg] at h
            dsimp only at h
            cases hdir : MediaDownloader.lookupOutcome env.direct (queue.get ⟨i, hlt⟩) with
            | ok rs =>
                rw [hdir] at h
                dsimp only at h
                injection h with h2
                subst h2
                exact ⟨[], by simp, List.nodup_nil, by simp⟩
            | redirect r =>
                rw [hdir] at h
                dsimp only at h
                exact pushIfNew_extra env queue r res.queue
                  (ih _ _ _ _ _ _ h) (redirect_mem_targets (Or.inr hdir))
            | thrown m2 =>
                rw [hdir] at h
                dsimp only at h
                exact ih _ _ _ _ _ _ h
            | nullResult =>
                rw [hdir] at h
                dsimp only at h
                exact ih _ _ _ _ _ _ h
        | nullResult =>
            rw [hbg] at h
            dsimp only at h
            cases hdir : MediaDownloader.lookupOutcome env.direct (queue.get ⟨i, hlt⟩) with
            | ok rs =>
                rw [hdir] at h
                dsimp only at h
                injection h with h2
                subst h2
                exact ⟨[], by simp, List.nodup_nil, by simp⟩
            | redirect r =>
                rw [hdir] at h
                dsimp only at h
                exact pushIfNew_extra env queue r res.queue
                  (ih _ _ _ _ _ _ h) (redirect_mem_targets (Or.inr hdir))
            | thrown m2 =>
                rw [hdir] at h
                dsimp only at h
                exact ih _ _ _ _ _ _ h
            | nullResult =>
                rw [hdir] at h
                dsimp only at h
                exact ih _ _ _ _ _ _ h
      · rw [dif_neg hlt] at h
        injection h with h2
        subst h2
        exact ⟨[], by simp, List.nodup_nil, by simp⟩

/-- Claim C3: during one reference's resolution, a redirect URL found in a
JSON response is appended to the end of the candidate queue only if not
already present, so the final queue is the initial queue plus a duplicate-free
list of fresh redirect targets, its length is bounded by the number of
distinct URLs encountered, and the loop terminates (the fuel
`loopFuel env queue + 1` is never exhausted) — even when a redirect points
back to a URL already attempted. -/
theorem claim_C3_redirect_dedupe (env : MediaDownloader.FetchEnv) (queue : List String) :
    MediaDownloader.tryUrlsGo env (MediaDownloader.loopFuel env queue + 1)
        queue 0 [] [] 0 ≠ none ∧
    ∃ extra, (MediaDownloader.tryUrls env queue).queue = queue ++ extra ∧
      extra.Nodup ∧
      (∀ u ∈ extra, u ∉ queue ∧ u ∈ MediaDownloader.redirectTargets env) ∧
      (MediaDownloader.tryUrls env queue).queue.length
        ≤ queue.length + (MediaDownloader.redirectTargets env).dedup.length := by
  have hne : MediaDownloader.tryUrlsGo env (MediaDownloader.loopFuel env queue + 1)
      queue 0 [] [] 0 ≠ none := by
    apply tryUrlsGo_ne_none
    rw [MediaDownloader.loopFuel]
    omega
  refine ⟨hne, ?_⟩
  cases hres : MediaDownloader.tryUrlsGo env (MediaDownloader.loopFuel env queue + 1)
      queue 0 [] [] 0 with
  | none => exact absurd hres hne
  | some res =>
      have htu : MediaDownloader.tryUrls env queue = res := by
        rw [MediaDownloader.tryUrls, hres]
        rfl
      obtain ⟨extra, heq, hnd, hprop⟩ := tryUrlsGo_queue_inv env _ _ _ _ _ _ _ hres
      refine ⟨extra, by rw [htu]; exact heq, hnd, hprop, ?_⟩
      rw [htu, heq, List.length_append]
      have hsub : extra.toFinset ⊆ (MediaDownloader.redirectTargets env).toFinset :=
        fun x hx => List.mem_toFinset.mpr ((hprop x (List.mem_toFinset.mp hx)).2)
      have h1 : extra.toFinset.card = extra.length := List.toFinset_card_of_nodup hnd
      have h2 := Finset.card_le_card hsub
      have h3 := List.card_toFinset (MediaDownloader.redirectTargets env)
      omega

/-- Claim C2 (amended): a sediment reference whose `renderedUrl` matches the
signed storage-mirror pattern and whose privileged direct download succeeds is
resolved via the privileged path and `generateAlternativeUrls` is never
invoked; without the success assumption the executor falls through to
enumeration (see the counterexample). -/
theorem claim_C2_sas_privileged_path (env : MediaDownloader.DMEnv)
    (mediaRef : MediaRef) (token : String) (conversationFolder : Option String)
    (ap u : String)
    (h1 : mediaRef.assetPointer = some ap)
    (h2 : jsIncludes ap "sediment://" = true)
    (h3 : mediaRef.renderedUrl = some u)
    (h4 : jsIncludes u "sdmntpr" = true)
    (h5 : jsIncludes u "/raw" = true)
    (h6 : jsIncludes u "sig=" = true)
    (h7 : env.directDownload u (conversationFolder.getD "chatgpt_export"
      ++ "/media/" ++ FileUtils.createSuitableFilename mediaRef (some "image/png"))
      = true) :
    MediaDownloader.downloadMedia env mediaRef token conversationFolder =
      { success := true, contentType := some "image/png",
        method := some "direct_sediment_download_with_sas",
        renderedUrl := some u, genAltCalls := 0 } := by
  have hne : ap.isEmpty = false :=
    string_isEmpty_false_of_data_ne (data_ne_nil_of_jsIncludes_sediment h2)
  rw [MediaDownloader.downloadMedia, MediaDownloader.sedimentStage]
  simp only [h1, h3, optTruthy, Option.getD_some, hne, Bool.not_false, Bool.true_and,
    h2, if_pos, h4, h5, h6, h7, Bool.and_self, if_true]

/-- Witness for C2's amended theorem on a concrete signed sediment URL. -/
theorem claim_C2_witness :
    MediaDownloader.downloadMedia
      { sedimentRegionsCfg := some ["westus2"],
        directDownload := fun v _ =>
          v == "https://sdmntprwestus2.oaiusercontent.com/files/ab-cd/raw?sig=x" }
      { assetPointer := some "sediment://file_abcd1234",
        renderedUrl := some "https://sdmntprwestus2.oaiusercontent.com/files/ab-cd/raw?sig=x" }
      "tok" none =
      { success := true, contentType := some "image/png",
        method := some "direct_sediment_download_with_sas",
        renderedUrl := some "https://sdmntprwestus2.oaiusercontent.com/files/ab-cd/raw?sig=x",
        genAltCalls := 0 } :=
  claim_C2_sas_privileged_path _ _ "tok" none
    "sediment://file_abcd1234"
    "https://sdmntprwestus2.oaiusercontent.com/files/ab-cd/raw?sig=x"
    rfl (by decide) rfl (by decide) (by decide) (by decide) (by decide)

/-- Counterexample for C2 as stated: the same signed-pattern reference in an
environment where every download attempt fails makes `downloadMedia` return
failure after invoking `generateAlternativeUrls` twice (once per domain), so
the generator call count is not zero and the call does not succeed. -/
theorem claim_C2_counterexample :
    (MediaDownloader.downloadMedia
      { sedimentRegionsCfg := some ["westus2"] }
      { assetPointer := some "sediment://file_abcd1234",
        renderedUrl := some "https://sdmntprwestus2.oaiusercontent.com/files/ab-cd/raw?sig=x" }
      "tok" none).success = false ∧
    (MediaDownloader.downloadMedia
      { sedimentRegionsCfg := some ["westus2"] }
      { assetPointer := some "sediment://file_abcd1234",
        renderedUrl := some "https://sdmntprwestus2.oaiusercontent.com/files/ab-cd/raw?sig=x" }
      "tok" none).genAltCalls = 2 := by
  constructor
  · rfl
  · rfl

/-! ## C7: error-JSON payloads and the recorded reason -/

theorem jsIncludesGo_append (sub : List Char) :
    ∀ (a : List Char), jsIncludesGo sub (a ++ sub) = true := by
  intro a
  induction a with
  | nil =>
      simp only [List.nil_append]
      cases sub with
      | nil => rfl
      | cons c rest =>
          rw [jsIncludesGo]
          have hpre : (c :: rest).isPrefixOf (c :: rest) = true :=
            List.isPrefixOf_iff_prefix.mpr (List.prefix_refl _)
          rw [hpre, Bool.true_or]
  | cons c a ih =>
      rw [List.cons_append, jsIncludesGo, ih, Bool.or_true]

theorem jsIncludes_append_right (a b : String) : jsIncludes (a ++ b) b = true := by
  rw [jsIncludes, String.data_append]
  exact jsIncludesGo_append b.data a.data

/-- Claim C7 (amended): when the error-shaped JSON body is delivered with a
JSON content type (and the background fallback also fails), the item is not
saved and the recorded direct-fetch failure reason contains the embedded
error detail; with a non-JSON claimed type the detail is dropped (see the
counterexample). -/
theorem claim_C7_error_detail_reason (env : ZipEnv) (item : MediaItem)
    (resp : HttpResp) (j : JVal) (ct d : String)
    (hfetch : env.fetch item.url = some resp)
    (hct : resp.contentType = some ct)
    (hjson : jsIncludes ct "application/json" = true)
    (hbody : resp.body = .jsonBody j)
    (hstatus : jGet j "status" = some (.strV "error"))
    (hdetail : jGet j "detail" = some (.strV d))
    (hd : d ≠ "")
    (hhttp : jsStartsWith item.url "http" = true)
    (hremote : item.isRemote = false)
    (hg : jsIncludes item.url "googleusercontent.com" = false)
    (ha : jsIncludes item.url "anthropic.com" = false)
    (hbg : env.bgFetch item.url = none) :
    (processMediaItem env item).saved = none ∧
    directFailLog item ("API Error: " ++ d) ∈ (processMediaItem env item).logs ∧
    jsIncludes (directFailLog item ("API Error: " ++ d)) d = true := by
  have hdne : d.isEmpty = false := by
    apply string_isEmpty_false_of_data_ne
    intro hnil
    exact hd (String.ext hnil)
  have hstage : directStage env item
      = (none, [directFailLog item ("API Error: " ++ d)]) := by
    rw [directStage, hfetch]
    simp only [hct, hjson, hbody, jBodyJson, if_true]
    have hsucc : jStrEq j "status" "success" = false := by
      rw [jStrEq, hstatus]
      decide
    have herr : jStrEq j "status" "error" = true := by
      rw [jStrEq, hstatus]
      decide
    have htr : jTruthy (jGet j "detail") = true := by
      rw [hdetail, jTruthy, hdne]
      rfl
    rw [hsucc, herr]
    simp only [Bool.false_and, Bool.true_or, if_false, if_true, htr, Bool.false_eq_true]
    rw [hdetail]
    rfl
  have hproc : processMediaItem env item
      = { saved := none, logs := [directFailLog item ("API Error: " ++ d)] } := by
    rw [processMediaItem]
    simp only [hremote, hg, ha, Bool.or_false, Bool.false_or, Bool.not_false, hhttp,
      Bool.and_self, if_true, hstage, hbg]
  refine ⟨by rw [hproc], by rw [hproc]; exact List.mem_singleton.mpr rfl, ?_⟩
  have hassoc : directFailLog item ("API Error: " ++ d)
      = ("Direct fetch failed/rejected for " ++ item.filename ++ ": " ++ "API Error: ") ++ d := by
    rw [directFailLog]
    exact (String.append_assoc _ "API Error: " d).symm
  rw [hassoc]
  exact jsIncludes_append_right _ d

/-- Witness for C7's amended theorem on the spec's fixture body. -/
theorem claim_C7_witness :
    (processMediaItem
      ⟨fun _ => some ⟨200, some "application/json",
        .jsonBody (.objV [("status", .strV "error"), ("detail", .strV "not found")])⟩,
       fun _ => none⟩
      ⟨"https://chatgpt.com/backend-api/files/file-x/download", "f.png", false⟩).saved
      = none ∧
    directFailLog
      ⟨"https://chatgpt.com/backend-api/files/file-x/download", "f.png", false⟩
      ("API Error: " ++ "not found")
      ∈ (processMediaItem
        ⟨fun _ => some ⟨200, some "application/json",
          .jsonBody (.objV [("status", .strV "error"), ("detail", .strV "not found")])⟩,
         fun _ => none⟩
        ⟨"https://chatgpt.com/backend-api/files/file-x/download", "f.png", false⟩).logs ∧
    jsIncludes (directFailLog
      ⟨"https://chatgpt.com/backend-api/files/file-x/download", "f.png", false⟩
      ("API Error: " ++ "not found")) "not found" = true :=
  claim_C7_error_detail_reason _ _
    ⟨200, some "application/json",
      .jsonBody (.objV [("status", .strV "error"), ("detail", .strV "not found")])⟩
    (.objV [("status", .strV "error"), ("detail", .strV "not found")])
    "application/json" "not found"
    rfl rfl (by decide) rfl rfl rfl (by decide) (by decide) rfl (by decide)
    (by decide) rfl

/-- Counterexample for C7 as stated: the same error body delivered under a
claimed `image/png` content type is rejected by the size/shape gate with the
fixed reason `File contains Error JSON.`, which does not contain the embedded
detail `not found`. -/
theorem claim_C7_counterexample :
    (processMediaItem
      ⟨fun _ => some ⟨200, some "image/png",
        .jsonBody (.objV [("status", .strV "error"), ("detail", .strV "not found")])⟩,
       fun _ => none⟩
      ⟨"https://chatgpt.com/backend-api/files/file-x/download", "f.png", false⟩).saved.isSome
      = false ∧
    (processMediaItem
      ⟨fun _ => some ⟨200, some "image/png",
        .jsonBody (.objV [("status", .strV "error"), ("detail", .strV "not found")])⟩,
       fun _ => none⟩
      ⟨"https://chatgpt.com/backend-api/files/file-x/download", "f.png", false⟩).logs
      = ["Skipping f.png: File contains Error JSON."] ∧
    jsIncludes "Skipping f.png: File contains Error JSON." "not found" = false :=
  ⟨rfl, rfl, by decide⟩

/-! ## C8: the batch orchestrator on an empty reference set -/

/-- Claim C8 (amended): with zero media references the orchestrator returns
the tally `{total 0, completed 0, failed 0}` with no download dispatches and
no per-reference resolutions, provided the conversation payload contains no
direct file URLs (or no payload is given); a payload with a matching direct
URL still triggers chrome download dispatches and inflates `completed` (see
the counterexample). -/
theorem claim_C8_empty_refs (env : MediaDownloader.BatchEnv) (token : String)
    (conversationData : Option MediaDownloader.ConvData)
    (h : conversationData = none
      ∨ ∃ c, conversationData = some c
          ∧ c.sedimentRawMatches = [] ∧ c.fileUrlMatches = []) :
    MediaDownloader.downloadAllMedia env [] token conversationData
      = { total := 0, completed := 0, failed := 0, dispatched := [], dmCalls := 0 } := by
  rcases h with rfl | ⟨c, rfl, h1, h2⟩
  · rw [MediaDownloader.downloadAllMedia]
    cases env.mediaExtractorLoaded <;> rfl
  · rw [MediaDownloader.downloadAllMedia]
    have hurls : MediaDownloader.allUrlMatches c = [] := by
      rw [MediaDownloader.allUrlMatches, h1, h2]
      rfl
    cases hext : env.mediaExtractorLoaded <;>
      cases hsas : c.sedimentSasMatches <;>
      simp [MediaDownloader.findRenderedImages, MediaDownloader.attachSasUrls, hurls]

/-- Witness for C8's amended theorem with no conversation payload. -/
theorem claim_C8_witness :
    MediaDownloader.downloadAllMedia {} [] "tok" none
      = { total := 0, completed := 0, failed := 0, dispatched := [], dmCalls := 0 } :=
  claim_C8_empty_refs {} "tok" none (Or.inl rfl)

/-- Counterexample for C8 as stated: zero references but a conversation
payload containing one signed sediment URL make the orchestrator dispatch a
chrome download and report `completed = 1`, so the run is neither
`{0,0,0}` nor free of download dispatches. -/
theorem claim_C8_counterexample :
    (MediaDownloader.downloadAllMedia {} [] "tok"
      (some { sedimentRawMatches :=
        ["https://sdmntprwestus2.oaiusercontent.com/files/ab-cd/raw?sig=x"] })).completed
      = 1 ∧
    (MediaDownloader.downloadAllMedia {} [] "tok"
      (some { sedimentRawMatches :=
        ["https://sdmntprwestus2.oaiusercontent.com/files/ab-cd/raw?sig=x"] })).dispatched
      = [("https://sdmntprwestus2.oaiusercontent.com/files/ab-cd/raw?sig=x",
          "chatgpt_export/media/dalle_ab-cd.png")] :=
  ⟨rfl, rfl⟩
